import Mathlib

/-!
Shallow embedding of the RAGMetaAdsAnalyst repository (Python) in Lean 4,
with theorems checking the natural-language specification against the code.

Source files embedded:
* `src/rag_processor.py`  — `MockVectorStore.similarity_search`
* `src/query_processor.py` — `CampaignQueryProcessor` (intent classification,
  entity extraction, filter suggestion), including an executable model of the
  Python `re` regular-expression constructs the patterns use
* `src/rag_pipeline.py`   — `MetaAdsRAGPipeline.query`
* `src/data_chunker.py`   — `CampaignDataChunker` (chunk ids, overview text)

Modelling conventions: Python floats are modelled as exact rationals (`ℚ`);
Python strings as Lean `String` (a list of unicode code points, matching
Python's code-point semantics for `len` and slicing on the ASCII inputs used
here); Python's `str.lower`/whitespace behaviour is modelled with
`Char.toLower`/`Char.isWhitespace`, which agree with Python on ASCII text.
-/

set_option maxRecDepth 100000

set_option maxRecDepth 100000

namespace RAGMeta

/-! ### Python string primitives -/

/-- Python `s.lower()`: code-point-wise lowercasing (ASCII-faithful). -/
def pyLower (s : String) : String := ⟨s.data.map Char.toLower⟩

/-- Python `s.split()` with no separator: split on runs of whitespace,
dropping empty pieces. -/
def pyWords (s : String) : List String :=
  ((s.data.splitOnP Char.isWhitespace).filter (fun l => l ≠ [])).map
    (fun l => ⟨l⟩)

/-- Python `s[:n]`: the first `n` code points of `s`. -/
def pyTake (s : String) (n : ℕ) : String := ⟨s.data.take n⟩

/-- Python `sub in s`: substring containment. -/
def pyContains (sub s : String) : Bool := decide (List.IsInfix sub.data s.data)

/-- The token set `set(s.lower().split())` used by the mock vector store. -/
def tokenSet (s : String) : Finset String := (pyWords (pyLower s)).toFinset

/-! ### `MockVectorStore` (src/rag_processor.py, lines 233-284)

A document holds `page_content` and a `metadata` dict; metadata values enter
the search only through `str(v)`, so they are modelled as the rendered
strings. -/

structure Document where
  page_content : String
  metadata : List (String × String)
deriving DecidableEq

/-- Token set `set(doc.page_content.lower().split())`. -/
def contentTokens (d : Document) : Finset String := tokenSet d.page_content

/-- Token set of `" ".join(str(v) for v in doc.metadata.values()).lower()`. -/
def metadataTokens (d : Document) : Finset String :=
  tokenSet (String.intercalate " " (d.metadata.map Prod.snd))

/-- The relevance score of `similarity_search`:
`overlap / len(query_words) if query_words else 0` plus
`metadata_overlap * 0.1`.  The float `0.1` is the exact rational `1/10`. -/
def relevance_score (q : String) (d : Document) : ℚ :=
  let qw := tokenSet q
  let overlap := (qw ∩ contentTokens d).card
  let base : ℚ := if qw.card ≠ 0 then (overlap : ℚ) / (qw.card : ℚ) else 0
  let metadata_overlap := (qw ∩ metadataTokens d).card
  base + (metadata_overlap : ℚ) * (1 / 10)

/-- One entry of the `scored_docs` list, remembering the corpus position. -/
structure ScoredDoc where
  idx : ℕ
  score : ℚ
  doc : Document
deriving DecidableEq

/-- State of `scored_docs` before sorting: documents paired with their
position and score, keeping only `relevance_score > 0`, in corpus order. -/
def scoredList (docs : List Document) (q : String) : List ScoredDoc :=
  ((docs.enum).map (fun p => ⟨p.1, relevance_score q p.2, p.2⟩)).filter
    (fun sd => 0 < sd.score)

/-- The order produced by `scored_docs.sort(key=lambda x: x[0], reverse=True)`:
descending score; Python's sort is stable, so equal scores keep corpus order,
which on entries with pairwise-distinct `idx` is exactly the lexicographic
order below. -/
def sortRel (a b : ScoredDoc) : Prop :=
  b.score < a.score ∨ (a.score = b.score ∧ a.idx ≤ b.idx)

instance : DecidableRel sortRel := fun a b =>
  inferInstanceAs
    (Decidable (b.score < a.score ∨ (a.score = b.score ∧ a.idx ≤ b.idx)))

/-- The sorted scored ranking of `similarity_search`. -/
def scoredRanking (docs : List Document) (q : String) : List ScoredDoc :=
  List.insertionSort sortRel (scoredList docs q)

/-- Embedding of `MockVectorStore.similarity_search` (src/rag_processor.py
lines 240-269): top-`k` of the sorted scored ranking, falling back to the
first `k` documents when nothing scored above zero and the corpus is
non-empty. -/
def similarity_search (docs : List Document) (q : String) (k : ℕ) :
    List Document :=
  let results := ((scoredRanking docs q).take k).map (fun sd => sd.doc)
  if results = [] ∧ docs ≠ [] then docs.take k else results

/-! ### An executable model of the `re` constructs used by query_processor.py

The patterns of `query_processor.py` use literals, alternation `(a|b)`,
classes (for whitespace, digits, quotes, date separators), greedy `*`, `+`, `?`, bounded
repetition, the word boundary `\b`, and capturing groups.  `mrun` returns all
ways a pattern can match a prefix of the input, in Python's backtracking
priority order (alternation left-first, quantifiers greedy), so the head of
the list is the match Python's engine finds.  The `prev` argument carries the
previous character for `\b`.  Recursion is by a fuel bound on the call depth;
every recursive call strictly decreases fuel, a starred subpattern only
iterates after consuming at least one character, and `enoughFuel` exceeds the
deepest possible call chain, so the fuel never runs out on the inputs used. -/

inductive RE where
  | eps
  | pred (p : Char → Bool)
  | seq (a b : RE)
  | alt (a b : RE)
  | star (a : RE)
  | wordB
  | group (n : ℕ) (a : RE)

/-- Python `\w`: ASCII alphanumerics and underscore. -/
def isWordChar (c : Char) : Bool := c.isAlphanum || c = '_'

/-- Python `\b`: true when exactly one side of the position is a word
character (ends of the string count as non-word). -/
def atBoundary (prev : Option Char) (s : List Char) : Bool :=
  let l := match prev with | none => false | some c => isWordChar c
  let r := match s with | [] => false | c :: _ => isWordChar c
  l != r

/-- One way a pattern can match a prefix: the last consumed character, the
remaining input, and the captured groups (group number, captured text). -/
structure MRes where
  prev : Option Char
  rest : List Char
  caps : List (ℕ × List Char)

def mrun : ℕ → RE → Option Char → List Char → List MRes
  | 0, _, _, _ => []
  | _+1, .eps, prev, s => [⟨prev, s, []⟩]
  | _+1, .pred p, _, s =>
      match s with
      | [] => []
      | c :: cs => if p c then [⟨some c, cs, []⟩] else []
  | _+1, .wordB, prev, s => if atBoundary prev s then [⟨prev, s, []⟩] else []
  | fuel+1, .alt a b, prev, s => mrun fuel a prev s ++ mrun fuel b prev s
  | fuel+1, .seq a b, prev, s =>
      (mrun fuel a prev s).flatMap (fun r =>
        (mrun fuel b r.prev r.rest).map
          (fun r2 => ⟨r2.prev, r2.rest, r.caps ++ r2.caps⟩))
  | fuel+1, .group n a, prev, s =>
      (mrun fuel a prev s).map (fun r =>
        ⟨r.prev, r.rest, r.caps ++ [(n, s.take (s.length - r.rest.length))]⟩)
  | fuel+1, .star a, prev, s =>
      ((mrun fuel a prev s).filter (fun r => r.rest.length < s.length)).flatMap
        (fun r => (mrun fuel (.star a) r.prev r.rest).map
          (fun r2 => ⟨r2.prev, r2.rest, r.caps ++ r2.caps⟩))
      ++ [⟨prev, s, []⟩]

def reSize : RE → ℕ
  | .eps => 1
  | .pred _ => 1
  | .wordB => 1
  | .seq a b => reSize a + reSize b + 1
  | .alt a b => reSize a + reSize b + 1
  | .star a => reSize a + 1
  | .group _ a => reSize a + 1

/-- A call-depth bound: nesting contributes at most `reSize re` per star
iteration and each iteration consumes a character. -/
def enoughFuel (re : RE) (s : List Char) : ℕ :=
  (s.length + 2) * (reSize re + 2)

/-- The match Python's engine finds at this position, if any: the head of
the priority-ordered match list. -/
def firstMatch (re : RE) (prev : Option Char) (s : List Char) : Option MRes :=
  (mrun (enoughFuel re s) re prev s).head?

/-- One match as recorded by `re.findall`: captured groups and matched text. -/
structure MatchData where
  caps : List (ℕ × List Char)
  matched : List Char

/-- The scan of `re.findall`: try each position left to right, record the
match found there and continue after its end (after an empty match, advance
one character).  Each step consumes at least one character, so fuel
`s.length + 1` always suffices. -/
def findallAux : ℕ → RE → Option Char → List Char → List MatchData
  | 0, _, _, _ => []
  | fuel+1, re, prev, s =>
    match firstMatch re prev s with
    | some r =>
        let consumed := s.length - r.rest.length
        let m : MatchData := ⟨r.caps, s.take consumed⟩
        if consumed = 0 then
          match s with
          | [] => [m]
          | c :: cs => m :: findallAux fuel re (some c) cs
        else
          m :: findallAux fuel re r.prev r.rest
    | none =>
        match s with
        | [] => []
        | c :: cs => findallAux fuel re (some c) cs

def findall (re : RE) (s : String) : List MatchData :=
  findallAux (s.data.length + 1) re none s.data

/-- The value `len(re.findall(pattern, s))`. -/
def patternCount (re : RE) (s : String) : ℕ := (findall re s).length

/-- A Python `re.findall` result item: a string (0 or 1 groups) or a tuple
of group strings (2 or more groups). -/
inductive PyStr where
  | str (s : String)
  | tup (xs : List String)
deriving DecidableEq

/-- Text of capture group `n` (empty when the group did not participate; the
patterns here capture each group at most once per match). -/
def capStr (m : MatchData) (n : ℕ) : String := ⟨(m.caps.lookup n).getD []⟩

/-- `re.findall(pattern, s)` for a pattern with `ngroups` capturing groups:
the matched text when there are no groups, the single group's text for one
group, and a tuple of group texts otherwise. -/
def findallPy (re : RE) (ngroups : ℕ) (s : String) : List PyStr :=
  (findall re s).map (fun m =>
    if ngroups = 0 then .str ⟨m.matched⟩
    else if ngroups = 1 then .str (capStr m 1)
    else .tup ((List.range ngroups).map (fun i => capStr m (i + 1))))

/-! Pattern combinators.  Both `classify_query` and `_extract_entities` call
`re.findall` with `re.IGNORECASE`, so literal characters match case-
insensitively. -/

def rchar (c : Char) : RE := .pred (fun x => x.toLower = c.toLower)

def rstr (w : String) : RE := w.data.foldr (fun c r => .seq (rchar c) r) .eps

def ralt : List RE → RE
  | [] => .pred (fun _ => false)
  | [x] => x
  | x :: xs => .alt x (ralt xs)

def rwords (ws : List String) : RE := ralt (ws.map rstr)

/-- Dot: any character except a newline. -/
def rdot : RE := .pred (fun c => c ≠ '\n')

def rdotStar : RE := .star rdot

/-- Class `\s` (Python whitespace, ASCII fragment). -/
def rws : RE := .pred Char.isWhitespace

/-- Class `\d`. -/
def rdigit : RE := .pred Char.isDigit

def rplus (a : RE) : RE := .seq a (.star a)

/-- Greedy `?`. -/
def ropt (a : RE) : RE := .alt a .eps

def rcat (xs : List RE) : RE := xs.foldr .seq .eps

/-! ### Intent patterns (`_build_intent_patterns`, src/query_processor.py
lines 26-93).  Groups do not affect `len(findall(...))`, so the capturing
groups of these patterns are not annotated. -/

def performance_anomaly_pats : List RE :=
  [ rcat [.wordB, rwords ["spike", "jump", "increase", "rise", "surge"],
      .wordB, rdotStar, .wordB, rwords ["cpm", "cpc", "cost", "spend"]],
    rcat [.wordB, rwords ["drop", "decline", "decrease", "fall", "crash"],
      .wordB, rdotStar, .wordB,
      rwords ["roas", "conversion", "ctr", "performance"]],
    rcat [.wordB, rstr "why", .wordB, rdotStar, .wordB,
      rwords ["high", "low", "bad", "poor", "expensive"]],
    rcat [.wordB, rstr "what", rdotStar,
      rwords ["happen", "wrong", "cause", "problem"]],
    rcat [.wordB,
      rwords ["anomaly", "unusual", "strange", "weird", "unexpected"]] ]

def campaign_comparison_pats : List RE :=
  [ rcat [.wordB, rstr "compare", .wordB, rdotStar, .wordB,
      rwords ["campaign", "audience", "performance"]],
    rcat [.wordB, rwords ["vs", "versus", "against", "compared to"], .wordB],
    rcat [.wordB, rstr "better", .wordB, rdotStar, .wordB,
      rwords ["campaign", "audience", "performance"]],
    rcat [.wordB, rwords ["difference", "different"], .wordB, rdotStar,
      .wordB, rwords ["between", "campaign"]],
    rcat [.wordB, rwords ["retargeting", "lookalike", "interest"], .wordB,
      rdotStar, .wordB, rwords ["vs", "versus", "compared"]] ]

def performance_ranking_pats : List RE :=
  [ rcat [.wordB, rstr "best", .wordB, rdotStar, .wordB,
      rwords ["perform", "campaign", "audience", "creative"]],
    rcat [.wordB, rstr "top", .wordB, rdotStar, .wordB,
      rwords ["perform", "campaign", "audience"]],
    rcat [.wordB, rwords ["worst", "lowest", "highest", "most", "least"],
      .wordB, rdotStar, .wordB, rwords ["perform", "roas", "cpm", "cpc"]],
    rcat [.wordB, rstr "rank", rdotStar, .wordB,
      rwords ["campaign", "audience", "performance"]],
    rcat [.wordB, rstr "which", rdotStar, .wordB,
      rwords ["best", "better", "perform"]] ]

def trend_analysis_pats : List RE :=
  [ rcat [.wordB, rstr "trend", .wordB, rdotStar, .wordB,
      rwords ["over time", "monthly", "weekly", "daily"]],
    rcat [.wordB, rwords ["pattern", "seasonal", "timeline", "history"]],
    rcat [.wordB, rwords ["last", "past", "previous"], .wordB, rdotStar,
      .wordB, rwords ["week", "month", "quarter", "year"]],
    rcat [.wordB, rstr "over", .wordB, rdotStar, .wordB,
      rwords ["time", "period", "duration"]],
    rcat [.wordB, rwords ["growth", "decline", "change"], .wordB, rdotStar,
      .wordB, rwords ["time", "period"]] ]

def prediction_forecast_pats : List RE :=
  [ rcat [.wordB, rstr "predict", .wordB, rdotStar, .wordB,
      rwords ["performance", "next", "future"]],
    rcat [.wordB, rstr "forecast", .wordB, rdotStar, .wordB,
      rwords ["week", "month", "performance"]],
    rcat [.wordB, rstr "next", .wordB, rdotStar, .wordB,
      rwords ["week", "month", "quarter"]],
    rcat [.wordB, rstr "future", .wordB, rdotStar, .wordB,
      rwords ["performance", "trend", "result"]],
    rcat [.wordB, rstr "will", .wordB, rdotStar, .wordB,
      rwords ["perform", "cost", "convert"]],
    rcat [.wordB, rstr "expect", .wordB, rdotStar, .wordB,
      rwords ["performance", "result", "roas"]] ]

def optimization_advice_pats : List RE :=
  [ rcat [.wordB, rstr "how", rdotStar, .wordB,
      rwords ["improve", "optimize", "fix", "increase", "decrease"]],
    rcat [.wordB, rstr "what", rdotStar, .wordB,
      rwords ["should", "recommend", "suggest", "advice"]],
    rcat [.wordB, rwords ["recommendation", "advice", "suggestion", "tip"]],
    rcat [.wordB, rwords ["optimize", "improve", "fix", "boost", "enhance"]],
    rcat [.wordB, rstr "should i", .wordB, rdotStar, .wordB,
      rwords ["pause", "stop", "increase", "decrease"]] ]

def budget_spend_pats : List RE :=
  [ rcat [.wordB, rstr "budget", .wordB, rdotStar, .wordB,
      rwords ["increase", "decrease", "optimize", "allocate"]],
    rcat [.wordB, rstr "spend", .wordB, rdotStar, .wordB,
      rwords ["too much", "too little", "optimize", "control"]],
    rcat [.wordB, rstr "cost", .wordB, rdotStar, .wordB,
      rwords ["per", "efficiency", "optimization"]],
    rcat [.wordB, rwords ["expensive", "cheap", "costly"], .wordB, rdotStar,
      .wordB, rwords ["campaign", "audience"]],
    rcat [.wordB, rstr "money", .wordB, rdotStar, .wordB,
      rwords ["waste", "save", "optimize", "efficient"]] ]

def audience_analysis_pats : List RE :=
  [ rcat [.wordB, rstr "audience", .wordB, rdotStar, .wordB,
      rwords ["perform", "target", "segment", "behavior"]],
    rcat [.wordB, rwords ["demographic", "interest", "behavior"], .wordB,
      rdotStar, .wordB, rwords ["perform", "target"]],
    rcat [.wordB, rwords ["age", "gender", "location", "interest"], .wordB,
      rdotStar, .wordB, rwords ["perform", "convert"]],
    rcat [.wordB, rstr "target", .wordB, rdotStar, .wordB,
      rwords ["audience", "demographic", "interest"]],
    rcat [.wordB, rstr "segment", .wordB, rdotStar, .wordB,
      rwords ["perform", "audience", "target"]] ]

def creative_performance_pats : List RE :=
  [ rcat [.wordB, rstr "creative", .wordB, rdotStar, .wordB,
      rwords ["perform", "fatigue", "refresh", "test"]],
    rcat [.wordB, rstr "ad", .wordB, rdotStar, .wordB,
      rwords ["creative", "copy", "image", "video", "perform"]],
    rcat [.wordB, rwords ["headline", "copy", "image", "video"], .wordB,
      rdotStar, .wordB, rwords ["perform", "test"]],
    rcat [.wordB, rstr "creative", rdotStar, .wordB,
      rwords ["rotation", "refresh", "update", "change"]],
    rcat [.wordB, rwords ["fatigue", "tired", "stale"], .wordB, rdotStar,
      .wordB, rwords ["creative", "ad", "audience"]] ]

/-- The intent table in source (dict insertion) order. -/
def intent_patterns : List (String × List RE) :=
  [ ("performance_anomaly", performance_anomaly_pats),
    ("campaign_comparison", campaign_comparison_pats),
    ("performance_ranking", performance_ranking_pats),
    ("trend_analysis", trend_analysis_pats),
    ("prediction_forecast", prediction_forecast_pats),
    ("optimization_advice", optimization_advice_pats),
    ("budget_spend", budget_spend_pats),
    ("audience_analysis", audience_analysis_pats),
    ("creative_performance", creative_performance_pats) ]

/-! ### Entity patterns (`_build_entity_patterns`, src/query_processor.py
lines 95-107), with their capturing groups and group counts. -/

def apos : Char := Char.ofNat 39

def campaign_names_re : RE :=
  rcat [.wordB, .group 1 (rwords ["campaign", "ad"]), rplus rws,
    .pred (fun c => c = apos || c = '"'),
    .group 2 (rplus (.pred (fun c => c ≠ apos && c ≠ '"'))),
    .pred (fun c => c = apos || c = '"')]

def metrics_re : RE :=
  rcat [.wordB,
    .group 1 (rwords ["roas", "cpm", "cpc", "ctr", "spend", "cost",
      "conversion", "impression", "click", "reach", "frequency"]),
    .wordB]

def time_periods_re : RE :=
  rcat [.wordB, .group 1 (rwords ["last", "past", "previous", "next"]),
    rplus rws, .group 2 (rwords ["week", "month", "quarter", "year", "day"])]

/-- Class `[\/\-]`. -/
def rdateSep : RE := .pred (fun c => c = '/' || c = '-')

/-- Bounded repetition `\d{1,2}` (greedy). -/
def rd12 : RE := rcat [rdigit, ropt rdigit]

/-- Bounded repetition `\d{2,4}` (greedy). -/
def rd24 : RE := rcat [rdigit, rdigit, ropt (rcat [rdigit, ropt rdigit])]

def specific_dates_re : RE :=
  rcat [.wordB,
    .group 1 (.alt (rcat [rd12, rdateSep, rd12, rdateSep, rd24])
      (rcat [rdigit, rdigit, rdigit, rdigit, rdateSep, rd12, rdateSep, rd12])),
    .wordB]

def percentages_re : RE :=
  rcat [.wordB,
    .group 1 (rcat [rplus rdigit, ropt (rcat [rchar '.', rplus rdigit])]),
    .star rws, rchar '%']

def currency_re : RE :=
  rcat [rchar '$',
    .group 1 (rcat [rplus rdigit,
      .star (rcat [rchar ',', rdigit, rdigit, rdigit]),
      ropt (rcat [rchar '.', rdigit, rdigit])])]

def audience_types_re : RE :=
  rcat [.wordB,
    .group 1 (ralt [rstr "retargeting", rstr "lookalike", rstr "interest",
      rstr "broad", rstr "custom",
      rcat [rstr "website", rplus rws, rstr "visitor"]]),
    .wordB]

def industries_re : RE :=
  rcat [.wordB,
    .group 1 (rwords ["fashion", "electronics", "fitness", "travel",
      "luxury", "home", "garden"]),
    .wordB]

def placements_re : RE :=
  rcat [.wordB,
    .group 1 (ralt [rstr "feed", rstr "story", rstr "stories", rstr "reel",
      rstr "reels", rstr "messenger",
      rcat [rstr "audience", rplus rws, rstr "network"]]),
    .wordB]

/-- The entity table (name, pattern, number of capturing groups) in source
order. -/
def entity_patterns : List (String × RE × ℕ) :=
  [ ("campaign_names", campaign_names_re, 2),
    ("metrics", metrics_re, 1),
    ("time_periods", time_periods_re, 2),
    ("specific_dates", specific_dates_re, 1),
    ("percentages", percentages_re, 1),
    ("currency", currency_re, 1),
    ("audience_types", audience_types_re, 1),
    ("industries", industries_re, 1),
    ("placements", placements_re, 1) ]

/-! ### `CampaignQueryProcessor` (src/query_processor.py) -/

/-- One intent category's score:
`score += len(matches) * (1.0 / len(patterns))` over its patterns.  The
float arithmetic is modelled exactly in `ℚ`. -/
def intentScore (pats : List RE) (q : String) : ℚ :=
  pats.foldl (fun sc p => sc + (patternCount p q : ℚ) * (1 / (pats.length : ℚ))) 0

/-- The `intent_scores` dict: every category scored against the lower-cased
query, in table order. -/
def intentScoresList (q : String) : List (String × ℚ) :=
  intent_patterns.map (fun np => (np.1, intentScore np.2 (pyLower q)))

/-- Python `max(values)` on a non-empty list (`0` as a junk value on `[]`,
never reached: the table has nine entries). -/
def maxOfValues (l : List ℚ) : ℚ :=
  match l with
  | [] => 0
  | x :: xs => xs.foldl max x

/-- Python `max(keys, key=lambda x: scores[x])`: the first key attaining the
maximal score (later keys replace the champion only on strictly greater
score). -/
def argmaxFirst (l : List (String × ℚ)) : String × ℚ :=
  match l with
  | [] => ("", 0)
  | x :: xs => xs.foldl (fun b y => if b.2 < y.2 then y else b) x

/-- A suggested-filter value (`_suggest_filters` stores heterogeneous dict
values: parsed time periods, entity match lists, and plain strings). -/
inductive FilterVal where
  | period (name : String) (days : ℕ)
  | periodCustom (raw : String)
  | matches (ms : List PyStr)
  | strv (s : String)
deriving DecidableEq

/-- Embedding of `_parse_time_period` (src/query_processor.py lines 203-220). -/
def parse_time_period (tp : String) : FilterVal :=
  let pl := pyLower tp
  if pyContains "last week" pl || pyContains "past week" pl then
    .period "last_week" 7
  else if pyContains "last month" pl || pyContains "past month" pl then
    .period "last_month" 30
  else if pyContains "last quarter" pl then .period "last_quarter" 90
  else if pyContains "next week" pl then .period "next_week" 7
  else if pyContains "next month" pl then .period "next_month" 30
  else .periodCustom tp

/-- Embedding of `_extract_entities` (src/query_processor.py lines 144-153):
every entity pattern run with `re.findall` on the original query, keeping
only non-empty match lists, in table order. -/
def extract_entities (q : String) : List (String × List PyStr) :=
  entity_patterns.filterMap (fun ep =>
    let ms := findallPy ep.2.1 ep.2.2 q
    if ms = [] then none else some (ep.1, ms))

/-- Python truthiness of a findall item (`if time_period:`). -/
def pyTruthy : PyStr → Bool
  | .str s => s ≠ ""
  | .tup xs => xs ≠ []

/-- Python `" ".join(time_period)` when the item is a tuple, identity on a
string. -/
def joinTupleWithSpace : PyStr → String
  | .str s => s
  | .tup xs => String.intercalate " " xs

/-- Embedding of `_suggest_filters` (src/query_processor.py lines 155-201),
as an association list in dict insertion order. -/
def suggest_filters (q : String) (entities : List (String × List PyStr))
    (intent : String) : List (String × FilterVal) :=
  let timeF : List (String × FilterVal) :=
    match entities.lookup "time_periods" with
    | some (tp :: _) =>
        if pyTruthy tp then
          [("time_filter", parse_time_period (joinTupleWithSpace tp))]
        else []
    | some [] => []
    | none => []
  let campF := match entities.lookup "campaign_names" with
    | some ms => [("campaign_filter", FilterVal.matches ms)]
    | none => []
  let audF := match entities.lookup "audience_types" with
    | some ms => [("audience_filter", FilterVal.matches ms)]
    | none => []
  let indF := match entities.lookup "industries" with
    | some ms => [("industry_filter", FilterVal.matches ms)]
    | none => []
  let metF := match entities.lookup "metrics" with
    | some ms => [("metrics_focus", FilterVal.matches ms)]
    | none => []
  let ql := pyLower q
  let intentF : List (String × FilterVal) :=
    if intent = "campaign_comparison" then
      if pyContains "retargeting" ql || pyContains "lookalike" ql then
        [("comparison_type", FilterVal.strv "audience_type")]
      else if pyContains "campaign" ql || pyContains "ad" ql then
        [("comparison_type", FilterVal.strv "campaign_level")]
      else []
    else if intent = "performance_ranking" then
      if pyContains "roas" ql || pyContains "return" ql then
        [("ranking_metric", FilterVal.strv "roas")]
      else if pyContains "cpm" ql || pyContains "cost" ql
          || pyContains "expensive" ql then
        [("ranking_metric", FilterVal.strv "cpm")]
      else if pyContains "ctr" ql || pyContains "engagement" ql then
        [("ranking_metric", FilterVal.strv "ctr")]
      else []
    else []
  timeF ++ campF ++ audF ++ indF ++ metF ++ intentF

/-- The result dataclass of `classify_query`. -/
structure QueryIntent where
  intent_type : String
  confidence : ℚ
  extracted_entities : List (String × List PyStr)
  suggested_filters : List (String × FilterVal)
deriving DecidableEq

/-- Embedding of `CampaignQueryProcessor.classify_query`
(src/query_processor.py lines 109-142).  The float `0.3` is the exact
rational `3/10`. -/
def classify_query (q : String) : QueryIntent :=
  let scores := intentScoresList q
  let entities := extract_entities q
  if scores = [] ∨ maxOfValues (scores.map Prod.snd) = 0 then
    ⟨"general_inquiry", 3 / 10, entities,
      suggest_filters q entities "general_inquiry"⟩
  else
    let best := argmaxFirst scores
    ⟨best.1, min best.2 1, entities, suggest_filters q entities best.1⟩

/-! ### `MetaAdsRAGPipeline.query` (src/rag_pipeline.py, lines 144-183)

The three steps inside the `try` block (intent classification, RAG-chain
invocation, retrieval of source documents) can each raise at run time
(network, API, data errors), so each is modelled as an `Except`-valued
component the pipeline is parametric over; the embedding captures exactly
the control flow of `query`'s `try/except`. -/

/-- The `query_intent` field of the result dict: a `QueryIntent` on success,
the placeholder string `"unknown"` on failure. -/
inductive IntentField where
  | intent (qi : QueryIntent)
  | placeholder (s : String)
deriving DecidableEq

/-- One entry of the `sources` list. -/
structure SourceEntry where
  content : String
  metadata : List (String × String)
deriving DecidableEq

/-- The result dict of `MetaAdsRAGPipeline.query`.  The success dict has no
`error` key, modelled as `error = none`. -/
structure QueryResponse where
  answer : String
  query_intent : IntentField
  sources : List SourceEntry
  success : Bool
  error : Option String
deriving DecidableEq

/-- The source list built on success:
`doc.page_content[:200] + "..." if len(doc.page_content) > 200 else
doc.page_content` over `retrieved_docs[:3]`. -/
def mkSources (docs : List Document) : List SourceEntry :=
  (docs.take 3).map (fun d =>
    ⟨if 200 < d.page_content.length then pyTake d.page_content 200 ++ "..."
      else d.page_content,
      d.metadata⟩)

/-- The `except` branch of `query`. -/
def errResponse (e : String) : QueryResponse :=
  { answer := "I apologize, but I encountered an error processing your query: "
      ++ e,
    query_intent := .placeholder "unknown",
    sources := [],
    success := false,
    error := some e }

/-- Embedding of `MetaAdsRAGPipeline.query`: classify, invoke the chain,
optionally retrieve sources; any step's failure is caught and turned into
the error response. -/
def pipelineQuery (classify : String → Except String QueryIntent)
    (invokeChain : String → Except String String)
    (getRelevantDocuments : String → Except String (List Document))
    (question : String) (include_sources : Bool) : QueryResponse :=
  match classify question with
  | .error e => errResponse e
  | .ok qi =>
    match invokeChain question with
    | .error e => errResponse e
    | .ok answer =>
      if include_sources then
        match getRelevantDocuments question with
        | .error e => errResponse e
        | .ok docs =>
          { answer := answer, query_intent := .intent qi,
            sources := mkSources docs, success := true, error := none }
      else
        { answer := answer, query_intent := .intent qi, sources := [],
          success := true, error := none }

/-! ### `CampaignDataChunker` (src/data_chunker.py)

Campaign records are Python dicts; the fields the chunker reads are
modelled, with `Option` for fields read through `.get` (Python falsiness of
a missing or empty dict maps missing-or-empty to `none`).  Daily metric
values do not influence chunk ids or the overview text, so a campaign
carries only its performance dates (the keys of `daily_performance`). -/

structure Budget where
  daily_budget : ℕ
  total_budget : ℕ
deriving DecidableEq

structure Targeting where
  age_min : Option ℕ
  age_max : Option ℕ
  interests : List String
  placements : List String
deriving DecidableEq

structure Campaign where
  id : String
  name : String
  objective : String
  status : String
  industry : Option String
  audience : Option String
  budget : Option Budget
  targeting : Option Targeting
  performance_dates : List String
  has_insights : Bool
deriving DecidableEq

/-- Campaigns plus the presence flags of the `global_insights` sections. -/
structure CampaignsData where
  campaigns : List Campaign
  has_market_trends : Bool
  has_best_practices : Bool
  has_anomalies : Bool
deriving DecidableEq

/-- The budget sentence of `_format_campaign_overview`: rendered only when
the budget dict is present and non-empty (`if budget:`). -/
def budgetText : Option Budget → String
  | none => ""
  | some b => "Daily budget: $" ++ toString b.daily_budget
      ++ ", Total budget: $" ++ toString b.total_budget ++ ". "

/-- The age sentence: rendered only when both bounds are present and
non-zero (`if age_min and age_max:`, Python truthiness). -/
def ageText (t : Targeting) : String :=
  match t.age_min, t.age_max with
  | some amin, some amax =>
      if amin ≠ 0 ∧ amax ≠ 0 then
        "Targeting ages " ++ toString amin ++ "-" ++ toString amax ++ ". "
      else ""
  | _, _ => ""

/-- The interests sentence (`if interests:`). -/
def interestsText (t : Targeting) : String :=
  if t.interests = [] then ""
  else "Interest targeting: " ++ String.intercalate ", " t.interests ++ ". "

/-- The placements sentence (`if placements:`); the source appends no
trailing space here. -/
def placementsText (t : Targeting) : String :=
  if t.placements = [] then ""
  else "Ad placements: " ++ String.intercalate ", " t.placements ++ "."

/-- The targeting block (`if targeting:`). -/
def targetingText : Option Targeting → String
  | none => ""
  | some t => ageText t ++ interestsText t ++ placementsText t

/-- The fixed head of the overview: name, objective, industry and audience
(the latter two defaulted via `campaign.get(..., "Unknown")`), and status. -/
def overviewHeader (c : Campaign) : String :=
  "Campaign \u0027" ++ c.name ++ "\u0027 is a " ++ c.objective
    ++ " campaign in the " ++ c.industry.getD "Unknown"
    ++ " industry targeting " ++ c.audience.getD "Unknown" ++ ". "
    ++ "Current status: " ++ c.status ++ ". "

/-- Embedding of `CampaignDataChunker._format_campaign_overview`
(src/data_chunker.py lines 185-217). -/
def format_campaign_overview (c : Campaign) : String :=
  overviewHeader c ++ budgetText c.budget ++ targetingText c.targeting

/-- Python `industry = campaign.get("industry", "Unknown")` as used for
grouping in `create_comparison_chunks`. -/
def industryOf (c : Campaign) : String := c.industry.getD "Unknown"

/-- The id normalisation `industry.lower().replace(' ', '_')`. -/
def normIndustry (s : String) : String :=
  ⟨(s.data.map Char.toLower).map (fun ch => if ch = ' ' then '_' else ch)⟩

/-- Chunk ids of `create_campaign_overview_chunks`: `overview_{id}`. -/
def overviewIds (cs : List Campaign) : List String :=
  cs.map (fun c => "overview_" ++ c.id)

/-- Chunk ids of `create_daily_performance_chunks`: `daily_{id}_{date}` for
every performance date of every campaign. -/
def dailyIds (cs : List Campaign) : List String :=
  cs.flatMap (fun c =>
    c.performance_dates.map (fun date => "daily_" ++ c.id ++ "_" ++ date))

/-- Chunk ids of `create_insights_chunks`: `insights_{id}` for campaigns
with a non-empty insights dict. -/
def insightsIds (cs : List Campaign) : List String :=
  (cs.filter (fun c => c.has_insights)).map (fun c => "insights_" ++ c.id)

/-- The industries in first-appearance order (the `by_industry` dict keeps
dict insertion order). -/
def industriesOrder (cs : List Campaign) : List String :=
  cs.foldl (fun acc c =>
    if industryOf c ∈ acc then acc else acc ++ [industryOf c]) []

/-- Chunk ids of `create_comparison_chunks`:
`comparison_{industry.lower().replace(' ', '_')}` for industries with more
than one campaign. -/
def comparisonIds (cs : List Campaign) : List String :=
  ((industriesOrder cs).filter (fun i =>
      1 < (cs.filter (fun c => industryOf c = i)).length)).map
    (fun i => "comparison_" ++ normIndustry i)

/-- Chunk ids of `create_global_insights_chunks`. -/
def globalIds (d : CampaignsData) : List String :=
  (if d.has_market_trends then ["global_market_trends"] else [])
    ++ (if d.has_best_practices then ["global_best_practices"] else [])
    ++ (if d.has_anomalies then ["global_anomalies"] else [])

/-- The ids of the chunks produced by one `create_all_chunks` build, in
build order (src/data_chunker.py lines 17-29). -/
def chunkIds (d : CampaignsData) : List String :=
  overviewIds d.campaigns ++ dailyIds d.campaigns ++ insightsIds d.campaigns
    ++ comparisonIds d.campaigns ++ globalIds d

/-! ### Concrete data used by witnesses and counterexamples -/

/-- A pipeline component that always classifies successfully. -/
def constClassify : String → Except String QueryIntent :=
  fun _ => .ok ⟨"general_inquiry", 3 / 10, [], []⟩

/-- A pipeline component that always answers. -/
def constInvoke : String → Except String String := fun _ => .ok "answer"

/-- A short retrieved document. -/
def docShort : Document := ⟨"hello world", [("chunk_type", "campaign_overview")]⟩

/-- A pipeline component that always retrieves `docShort`. -/
def constRetrieve : String → Except String (List Document) :=
  fun _ => .ok [docShort]

/-- A campaign record with no industry, audience, budget or targeting. -/
def campNoFields : Campaign :=
  ⟨"c1", "Summer Sale", "conversions", "active", none, none, none, none, [],
    false⟩

/-- A campaign with every optional overview field present. -/
def campFull : Campaign :=
  ⟨"c2", "Winter Push", "traffic", "paused", some "Fashion", some "Women",
    some ⟨50, 1000⟩, some ⟨some 25, some 45, ["shoes"], ["feed"]⟩,
    ["2024-01-01"], true⟩

/-- A campaign whose id ends where another id plus a date boundary is
ambiguous. -/
def campA : Campaign :=
  ⟨"c", "A", "conversions", "active", some "Fashion", none, none, none,
    ["1_d"], false⟩

/-- A campaign whose id extends `campA`'s id past an underscore. -/
def campB : Campaign :=
  ⟨"c_1", "B", "traffic", "active", some "Tech", none, none, none,
    ["d"], false⟩

/-- The collection refuting unconditional chunk-id uniqueness. -/
def cdataCex : CampaignsData := ⟨[campA, campB], false, false, false⟩

/-- Two same-industry campaigns with well-behaved ids and dates. -/
def campW1 : Campaign :=
  ⟨"a", "W1", "conversions", "active", some "Home Goods", none, none, none,
    ["2024-01-01", "2024-01-02"], true⟩

/-- A second campaign sharing `campW1`'s industry. -/
def campW2 : Campaign :=
  ⟨"b", "W2", "traffic", "active", some "Home Goods", none, none, none,
    ["2024-01-01"], false⟩

/-- A well-behaved collection exercising every chunk family. -/
def cdataW : CampaignsData := ⟨[campW1, campW2], true, true, true⟩

/-- The example query of claim C7. -/
def c7q : String := "Why did my CPM spike last week?"

/-- The intent scores the code computes for `c7q`: only pattern 3 of
`trend_analysis` (`last ... week`) matches, scoring `1/5`. -/
def c7scores : List (String × ℚ) :=
  [("performance_anomaly", 0), ("campaign_comparison", 0),
   ("performance_ranking", 0), ("trend_analysis", 1 / 5),
   ("prediction_forecast", 0), ("optimization_advice", 0),
   ("budget_spend", 0), ("audience_analysis", 0),
   ("creative_performance", 0)]

/-- The entities the code extracts from `c7q`: the match text keeps the
query's original casing (`"CPM"`), and the two-group time pattern yields the
tuple `("last", "week")`. -/
def c7entities : List (String × List PyStr) :=
  [("metrics", [.str "CPM"]), ("time_periods", [.tup ["last", "week"]])]

/-- The filters the code suggests for `c7q`. -/
def c7filters : List (String × FilterVal) :=
  [("time_filter", .period "last_week" 7),
   ("metrics_focus", .matches [.str "CPM"])]

end RAGMeta

/-! ## Theorems -/

namespace RAGMeta

/-! ### Generic helper lemmas -/

theorem strData_append (a b : String) : (a ++ b).data = a.data ++ b.data := by
  cases a; cases b; rfl

theorem strLength_append (a b : String) :
    (a ++ b).length = a.length + b.length := by
  rw [← String.length_data, strData_append, List.length_append,
    String.length_data, String.length_data]

theorem pyTake_length (s : String) (n : ℕ) :
    (pyTake s n).length = min n s.length := by
  rw [← String.length_data]
  show (s.data.take n).length = min n s.length
  rw [List.length_take, String.length_data]

/-! ### C4 -/

/-- C4: for every question, `MetaAdsRAGPipeline.query` never propagates an
exception: whatever the outcome of classification, generation and retrieval,
it returns a `QueryResponse`; on any failure that response has
`success = false`, an error message, an empty source list and the intent
placeholder `"unknown"`, and otherwise it has `success = true` (and no error
field). -/
theorem C4_query_never_propagates
    (f : String → Except String QueryIntent)
    (g : String → Except String String)
    (h : String → Except String (List Document))
    (question : String) (inc : Bool) :
    ((pipelineQuery f g h question inc).success = true ∧
        (pipelineQuery f g h question inc).error = none) ∨
      ((pipelineQuery f g h question inc).success = false ∧
        (pipelineQuery f g h question inc).sources = [] ∧
        (pipelineQuery f g h question inc).query_intent =
          IntentField.placeholder "unknown" ∧
        ∃ e, (pipelineQuery f g h question inc).error = some e ∧
          (pipelineQuery f g h question inc).answer =
            "I apologize, but I encountered an error processing your query: "
              ++ e) := by
  unfold pipelineQuery
  cases f question with
  | error e => exact Or.inr ⟨rfl, rfl, rfl, e, rfl, rfl⟩
  | ok qi =>
    cases g question with
    | error e => exact Or.inr ⟨rfl, rfl, rfl, e, rfl, rfl⟩
    | ok ans =>
      cases inc with
      | false => exact Or.inl ⟨rfl, rfl⟩
      | true =>
        cases h question with
        | error e => exact Or.inr ⟨rfl, rfl, rfl, e, rfl, rfl⟩
        | ok ds => exact Or.inl ⟨rfl, rfl⟩

/-! ### C5 -/

/-- C5: on a successful `query` call with `include_sources = true`, at most 3
sources are returned; each cited content is the document's content unchanged
when it has at most 200 characters and its first 200 characters followed by
an ellipsis otherwise, so every citation content has at most 203
characters. -/
theorem C5_sources_truncated
    (f : String → Except String QueryIntent)
    (g : String → Except String String)
    (h : String → Except String (List Document))
    (question : String) (ds : List Document)
    (hds : h question = .ok ds)
    (hs : (pipelineQuery f g h question true).success = true) :
    (pipelineQuery f g h question true).sources.length ≤ 3 ∧
      ∀ s ∈ (pipelineQuery f g h question true).sources, ∃ d ∈ ds,
        (d.page_content.length ≤ 200 → s.content = d.page_content) ∧
        (200 < d.page_content.length →
          s.content = pyTake d.page_content 200 ++ "...") ∧
        s.content.length ≤ 203 := by
  unfold pipelineQuery at hs ⊢
  cases hf : f question with
  | error e => rw [hf] at hs; simp [errResponse] at hs
  | ok qi =>
    cases hg : g question with
    | error e => rw [hf, hg] at hs; simp [errResponse] at hs
    | ok ans =>
      rw [hds]
      refine ⟨?_, ?_⟩
      · show (mkSources ds).length ≤ 3
        unfold mkSources
        rw [List.length_map, List.length_take]
        exact min_le_left _ _
      · intro s hsmem
        replace hsmem : s ∈ mkSources ds := hsmem
        unfold mkSources at hsmem
        rw [List.mem_map] at hsmem
        obtain ⟨d, hd, rfl⟩ := hsmem
        refine ⟨d, List.take_subset _ _ hd, ?_, ?_, ?_⟩
        · intro hle
          simp only
          rw [if_neg (by omega)]
        · intro hgt
          simp only
          rw [if_pos hgt]
        · by_cases hc : 200 < d.page_content.length

          · simp only
            rw [if_pos hc, strLength_append, pyTake_length]
            have h3 : ("..." : String).length = 3 := rfl
            rw [h3]
            omega
          · simp only
            rw [if_neg hc]
            omega

/-- Witness for C5 at a concrete pipeline. -/
theorem C5_sources_truncated_witness :
    (pipelineQuery constClassify constInvoke constRetrieve "q" true).sources.length ≤ 3 ∧
      ∀ s ∈ (pipelineQuery constClassify constInvoke constRetrieve "q" true).sources,
        ∃ d ∈ [docShort],
          (d.page_content.length ≤ 200 → s.content = d.page_content) ∧
          (200 < d.page_content.length →
            s.content = pyTake d.page_content 200 ++ "...") ∧
          s.content.length ≤ 203 :=
  C5_sources_truncated constClassify constInvoke constRetrieve "q" [docShort]
    rfl rfl

/-! ### C6 -/

/-- C6 counterexample: a campaign whose industry and audience are absent
still renders both slots in the overview, as the placeholder text
`"Unknown"` — these fields are defaulted, not left out, refuting the claim
for the industry and audience fields. -/
theorem C6_counterexample :
    campNoFields.industry = none ∧ campNoFields.audience = none ∧
      format_campaign_overview campNoFields =
        "Campaign 'Summer Sale' is a conversions campaign in the Unknown "
          ++ "industry targeting Unknown. Current status: active. " :=
  ⟨rfl, rfl, by decide⟩

/-- C6 (amended): the budget sentence and the whole targeting block (ages,
interests, placements) are omitted when absent, so the overview reduces to
its fixed head; but that head always renders industry and audience,
defaulting each to `"Unknown"` when the field is absent rather than leaving
it out. -/
theorem C6_amended_absent_fields
    (c : Campaign) (hb : c.budget = none)
    (ht : c.targeting = none ∨ ∃ t, c.targeting = some t ∧ t.age_min = none ∧
      t.interests = [] ∧ t.placements = []) :
    format_campaign_overview c = overviewHeader c := by
  unfold format_campaign_overview
  rw [hb]
  rcases ht with h | ⟨t, h, h1, h2, h3⟩
  · rw [h]
    show overviewHeader c ++ "" ++ "" = overviewHeader c
    rw [String.append_empty, String.append_empty]
  · rw [h]
    show overviewHeader c ++ "" ++ targetingText (some t) = overviewHeader c
    have hage : ageText t = "" := by unfold ageText; rw [h1]
    have hint : interestsText t = "" := by unfold interestsText; rw [if_pos h2]
    have hpl : placementsText t = "" := by unfold placementsText; rw [if_pos h3]
    show overviewHeader c ++ "" ++ (ageText t ++ interestsText t
      ++ placementsText t) = overviewHeader c
    rw [hage, hint, hpl, String.append_empty, String.append_empty,
      String.append_empty, String.append_empty]

/-- Witness for the amended C6 at a concrete campaign. -/
theorem C6_amended_absent_fields_witness :
    format_campaign_overview campNoFields = overviewHeader campNoFields :=
  C6_amended_absent_fields campNoFields rfl (Or.inl rfl)

/-! ### C9 -/

/-- C9 counterexample: campaign ids `"c"` (date `"1_d"`) and `"c_1"` (date
`"d"`) are pairwise distinct, yet both produce the daily chunk id
`"daily_c_1_d"`, so one build's chunk ids are not pairwise distinct. -/
theorem C9_counterexample :
    (cdataCex.campaigns.map (fun c => c.id)).Nodup ∧
      ¬ (chunkIds cdataCex).Nodup := by
  decide

/-- Splitting at an underscore is unambiguous when neither left part
contains one. -/
theorem underscore_split {u v a b : List Char} (hu : '_' ∉ u) (hv : '_' ∉ v)
    (h : u ++ '_' :: a = v ++ '_' :: b) : u = v ∧ a = b := by
  induction u generalizing v with
  | nil =>
    cases v with
    | nil => simpa using h
    | cons cv vs =>
      simp only [List.nil_append, List.cons_append, List.cons.injEq] at h
      exact absurd (h.1 ▸ List.mem_cons_self cv vs) hv
  | cons cu us ih =>
    cases v with
    | nil =>
      simp only [List.nil_append, List.cons_append, List.cons.injEq] at h
      exact absurd (h.1.symm ▸ List.mem_cons_self cu us) hu
    | cons cv vs =>
      simp only [List.cons_append, List.cons.injEq] at h
      have hu' : '_' ∉ us := fun hx => hu (List.mem_cons_of_mem _ hx)
      have hv' : '_' ∉ vs := fun hx => hv (List.mem_cons_of_mem _ hx)
      obtain ⟨h1, h2⟩ := ih hu' hv' h.2
      exact ⟨by rw [h.1, h1], h2⟩

/-- Appending after a fixed prefix is injective. -/
theorem strPrepend_inj (pre : String) :
    Function.Injective (fun s => pre ++ s) := by
  intro a b h
  have hd := congrArg String.data h
  rw [strData_append, strData_append] at hd
  have h2 := List.append_cancel_left hd
  cases a; cases b
  exact congrArg String.mk h2

/-- The daily chunk id determines the campaign id and the date when the
campaign ids contain no underscore. -/
theorem daily_id_inj {i1 i2 d1 d2 : String}
    (h1 : '_' ∉ i1.data) (h2 : '_' ∉ i2.data)
    (h : "daily_" ++ i1 ++ "_" ++ d1 = "daily_" ++ i2 ++ "_" ++ d2) :
    i1 = i2 ∧ d1 = d2 := by
  have hd := congrArg String.data h
  simp only [strData_append] at hd
  have hshape : ∀ x y : String, "daily_".data ++ x.data ++ "_".data ++ y.data
      = "daily_".data ++ (x.data ++ ('_' :: y.data)) := by
    intro x y
    show "daily_".data ++ x.data ++ ['_'] ++ y.data = _
    rw [List.append_assoc, List.append_assoc, List.singleton_append]
  rw [hshape, hshape] at hd
  have := underscore_split h1 h2 (List.append_cancel_left hd)
  obtain ⟨ha, hb⟩ := this
  constructor
  · cases i1; cases i2; exact congrArg String.mk ha
  · cases d1; cases d2; exact congrArg String.mk hb

/-- Strings with distinct head characters are distinct; used to separate
the five chunk-id families by their leading character. -/
theorem head_ne {s t : String} {c1 c2 : Char} (h1 : s.data.head? = some c1)
    (h2 : t.data.head? = some c2) (hne : c1 ≠ c2) : s ≠ t := by
  intro he
  rw [he, h2] at h1
  exact hne (Option.some.inj h1).symm

theorem head_of_prepend (pre : String) (c : Char)
    (hpre : pre.data.head? = some c) (x : String) :
    (pre ++ x).data.head? = some c := by
  rw [strData_append]
  cases hp : pre.data with
  | nil => rw [hp] at hpre; simp at hpre
  | cons a l => rw [hp] at hpre; simp at hpre; simp [hpre]

/-- C9 (amended): chunk ids of one build are pairwise distinct provided the
campaign ids are pairwise distinct and underscore-free, each campaign's
performance dates are distinct (dict keys), and distinct industries stay
distinct after `lower().replace(' ', '_')`; the ids remain deterministic
functions of chunk type, campaign id and date (or industry), but the raw
claim fails because the id strings can collide (see the counterexample). -/
theorem C9_amended_chunk_ids_nodup (d : CampaignsData)
    (hids : (d.campaigns.map (fun c => c.id)).Nodup)
    (hus : ∀ c ∈ d.campaigns, '_' ∉ c.id.data)
    (hdates : ∀ c ∈ d.campaigns, c.performance_dates.Nodup)
    (hind : ((industriesOrder d.campaigns).map normIndustry).Nodup) :
    (chunkIds d).Nodup := by
  obtain ⟨cs, f1, f2, f3⟩ := d
  simp only at hids hus hdates hind
  -- heads of the five families
  have hov : ∀ s ∈ overviewIds cs, s.data.head? = some 'o' := by
    intro s hs
    obtain ⟨c, _, rfl⟩ := List.mem_map.1 hs
    exact head_of_prepend "overview_" 'o' (by decide) _
  have hdy : ∀ s ∈ dailyIds cs, s.data.head? = some 'd' := by
    intro s hs
    obtain ⟨c, _, hs2⟩ := List.mem_flatMap.1 hs
    obtain ⟨dt, _, rfl⟩ := List.mem_map.1 hs2
    exact head_of_prepend ("daily_" ++ c.id ++ "_") 'd'
      (head_of_prepend ("daily_" ++ c.id) 'd'
        (head_of_prepend "daily_" 'd' (by decide) c.id) "_") dt
  have hin : ∀ s ∈ insightsIds cs, s.data.head? = some 'i' := by
    intro s hs
    obtain ⟨c, _, rfl⟩ := List.mem_map.1 hs
    exact head_of_prepend "insights_" 'i' (by decide) _
  have hcp : ∀ s ∈ comparisonIds cs, s.data.head? = some 'c' := by
    intro s hs
    obtain ⟨i, _, rfl⟩ := List.mem_map.1 hs
    exact head_of_prepend "comparison_" 'c' (by decide) _
  have hgl : ∀ s ∈ globalIds ⟨cs, f1, f2, f3⟩, s.data.head? = some 'g' := by
    intro s hs
    unfold globalIds at hs
    simp only at hs
    rcases List.mem_append.1 hs with hs' | hs'
    · rcases List.mem_append.1 hs' with hs'' | hs''
      · cases f1 <;> simp at hs'' <;> simp [hs'']
      · cases f2 <;> simp at hs'' <;> simp [hs'']
    · cases f3 <;> simp at hs' <;> simp [hs']
  -- Nodup of each family
  have hovN : (overviewIds cs).Nodup := by
    unfold overviewIds
    have : cs.map (fun c => "overview_" ++ c.id)
        = (cs.map (fun c => c.id)).map (fun s => "overview_" ++ s) := by
      rw [List.map_map]; rfl
    rw [this]
    exact (List.nodup_map_iff (strPrepend_inj "overview_")).2 hids
  have hpairsmem : ∀ p ∈ cs.flatMap (fun c =>
      c.performance_dates.map (fun dt => (c.id, dt))),
      ∃ c ∈ cs, p.1 = c.id ∧ p.2 ∈ c.performance_dates := by
    intro p hp
    obtain ⟨c, hc, hp2⟩ := List.mem_flatMap.1 hp
    obtain ⟨dt, hdt, rfl⟩ := List.mem_map.1 hp2
    exact ⟨c, hc, rfl, hdt⟩
  have hpairsN : (cs.flatMap (fun c =>
      c.performance_dates.map (fun dt => (c.id, dt)))).Nodup := by
    apply List.nodup_flatMap.2
    refine ⟨?_, ?_⟩
    · intro c hc
      exact (hdates c hc).map (fun d1 d2 hp => by
        simpa using congrArg Prod.snd hp)
    · have hpw : cs.Pairwise (fun a b => a.id ≠ b.id) :=
        List.pairwise_map.1 hids
      refine hpw.imp ?_
      intro c1 c2 hne x hx1 hx2
      obtain ⟨dt1, _, hx1e⟩ := List.mem_map.1 hx1
      obtain ⟨dt2, _, hx2e⟩ := List.mem_map.1 hx2
      exact absurd (congrArg Prod.fst (hx1e.trans hx2e.symm)) hne
  have hdyN : (dailyIds cs).Nodup := by
    have hrw : (cs.flatMap (fun c =>
        c.performance_dates.map (fun dt => (c.id, dt)))).map
          (fun p => "daily_" ++ p.1 ++ "_" ++ p.2) = dailyIds cs := by
      unfold dailyIds
      rw [List.map_flatMap]
      simp only [List.map_map]
      rfl
    rw [← hrw]
    apply hpairsN.map_on
    intro p1 hp1 p2 hp2 he
    obtain ⟨c1, hc1, hp1id, _⟩ := hpairsmem p1 hp1
    obtain ⟨c2, hc2, hp2id, _⟩ := hpairsmem p2 hp2
    have h1 : ('_' : Char) ∉ p1.1.data := by rw [hp1id]; exact hus c1 hc1
    have h2 : ('_' : Char) ∉ p2.1.data := by rw [hp2id]; exact hus c2 hc2
    obtain ⟨ha, hb⟩ := daily_id_inj h1 h2 he
    exact Prod.ext ha hb
  have hinN : (insightsIds cs).Nodup := by
    unfold insightsIds
    have : (cs.filter (fun c => c.has_insights)).map
        (fun c => "insights_" ++ c.id)
        = ((cs.filter (fun c => c.has_insights)).map (fun c => c.id)).map
          (fun s => "insights_" ++ s) := by
      rw [List.map_map]; rfl
    rw [this]
    apply (List.nodup_map_iff (strPrepend_inj "insights_")).2
    exact hids.sublist ((cs.filter_sublist).map (fun c => c.id))
  have hcpN : (comparisonIds cs).Nodup := by
    unfold comparisonIds
    have : ((industriesOrder cs).filter (fun i =>
        1 < (cs.filter (fun c => industryOf c = i)).length)).map
          (fun i => "comparison_" ++ normIndustry i)
        = (((industriesOrder cs).filter (fun i =>
            1 < (cs.filter (fun c => industryOf c = i)).length)).map
              normIndustry).map (fun s => "comparison_" ++ s) := by
      rw [List.map_map]; rfl
    rw [this]
    apply (List.nodup_map_iff (strPrepend_inj "comparison_")).2
    exact hind.sublist (((industriesOrder cs).filter_sublist).map normIndustry)
  have hglN : (globalIds ⟨cs, f1, f2, f3⟩).Nodup := by
    have hge : globalIds ⟨cs, f1, f2, f3⟩
        = (if f1 then ["global_market_trends"] else [])
          ++ (if f2 then ["global_best_practices"] else [])
          ++ (if f3 then ["global_anomalies"] else []) := rfl
    rw [hge]
    cases f1 <;> cases f2 <;> cases f3 <;> decide
  have head_clash : ∀ {s : String} {c1 c2 : Char},
      s.data.head? = some c1 → s.data.head? = some c2 → c1 ≠ c2 → False := by
    intro s c1 c2 h1 h2 h
    rw [h1] at h2
    exact h (by injection h2)
  show ((((overviewIds cs ++ dailyIds cs) ++ insightsIds cs)
    ++ comparisonIds cs) ++ globalIds ⟨cs, f1, f2, f3⟩).Nodup
  refine List.nodup_append.2 ⟨List.nodup_append.2 ⟨List.nodup_append.2
    ⟨List.nodup_append.2 ⟨hovN, hdyN, ?_⟩, hinN, ?_⟩, hcpN, ?_⟩, hglN, ?_⟩
  · intro s hs1 hs2
    exact head_clash (hov s hs1) (hdy s hs2) (by decide)
  · intro s hs1 hs2
    rcases List.mem_append.1 hs1 with h | h
    · exact head_clash (hov s h) (hin s hs2) (by decide)
    · exact head_clash (hdy s h) (hin s hs2) (by decide)
  · intro s hs1 hs2
    rcases List.mem_append.1 hs1 with h | h
    · rcases List.mem_append.1 h with h' | h'
      · exact head_clash (hov s h') (hcp s hs2) (by decide)
      · exact head_clash (hdy s h') (hcp s hs2) (by decide)
    · exact head_clash (hin s h) (hcp s hs2) (by decide)
  · intro s hs1 hs2
    rcases List.mem_append.1 hs1 with h | h
    · rcases List.mem_append.1 h with h' | h'
      · rcases List.mem_append.1 h' with h'' | h''
        · exact head_clash (hov s h'') (hgl s hs2) (by decide)
        · exact head_clash (hdy s h'') (hgl s hs2) (by decide)
      · exact head_clash (hin s h') (hgl s hs2) (by decide)
    · exact head_clash (hcp s h) (hgl s hs2) (by decide)

/-- Witness for the amended C9 at a concrete collection exercising all five
chunk families. -/
theorem C9_amended_chunk_ids_nodup_witness : (chunkIds cdataW).Nodup :=
  C9_amended_chunk_ids_nodup cdataW (by decide) (by decide) (by decide)
    (by decide)

/-! ### The scored ranking of `MockVectorStore.similarity_search` -/

instance : IsTotal ScoredDoc sortRel := ⟨by
  intro a b
  unfold sortRel
  rcases lt_trichotomy a.score b.score with h | h | h
  · exact Or.inr (Or.inl h)
  · rcases le_total a.idx b.idx with hi | hi
    · exact Or.inl (Or.inr ⟨h, hi⟩)
    · exact Or.inr (Or.inr ⟨h.symm, hi⟩)
  · exact Or.inl (Or.inl h)⟩

instance : IsTrans ScoredDoc sortRel := ⟨by
  intro a b c hab hbc
  unfold sortRel at *
  rcases hab with h1 | ⟨he1, hi1⟩ <;> rcases hbc with h2 | ⟨he2, hi2⟩
  · exact Or.inl (h2.trans h1)
  · exact Or.inl (by rw [← he2]; exact h1)
  · exact Or.inl (by rw [he1]; exact h2)
  · exact Or.inr ⟨he1.trans he2, hi1.trans hi2⟩⟩

theorem scoredRanking_perm (docs : List Document) (q : String) :
    (scoredRanking docs q).Perm (scoredList docs q) :=
  List.perm_insertionSort sortRel (scoredList docs q)

theorem scoredRanking_sorted (docs : List Document) (q : String) :
    (scoredRanking docs q).Sorted sortRel :=
  List.sorted_insertionSort sortRel (scoredList docs q)

/-- Membership in the pre-sort scored list: exactly the corpus positions
whose document scores above zero, with the recorded score. -/
theorem mem_scoredList {docs : List Document} {q : String} {sd : ScoredDoc} :
    sd ∈ scoredList docs q ↔
      docs[sd.idx]? = some sd.doc ∧ sd.score = relevance_score q sd.doc ∧
        0 < sd.score := by
  unfold scoredList
  rw [List.mem_filter]
  simp only [decide_eq_true_eq, List.mem_map]
  constructor
  · rintro ⟨⟨p, hp, he⟩, hpos⟩
    subst he
    exact ⟨List.mem_enum_iff_getElem?.1 hp, rfl, hpos⟩
  · rintro ⟨hget, hscore, hpos⟩
    refine ⟨⟨(sd.idx, sd.doc), List.mem_enum_iff_getElem?.2 hget, ?_⟩, hpos⟩
    obtain ⟨i, s, dd⟩ := sd
    simp only at hscore ⊢
    rw [← hscore]

theorem scoredList_idx_nodup (docs : List Document) (q : String) :
    ((scoredList docs q).map (fun sd => sd.idx)).Nodup := by
  unfold scoredList
  have h1 : List.Sublist
      ((((docs.enum).map
        (fun p => (⟨p.1, relevance_score q p.2, p.2⟩ : ScoredDoc))).filter
          (fun sd => 0 < sd.score)).map (fun sd => sd.idx))
      (((docs.enum).map
        (fun p => (⟨p.1, relevance_score q p.2, p.2⟩ : ScoredDoc))).map
          (fun sd => sd.idx)) :=
    (List.filter_sublist _).map _
  have h2 : ((docs.enum).map
        (fun p => (⟨p.1, relevance_score q p.2, p.2⟩ : ScoredDoc))).map
          (fun sd => sd.idx)
      = (docs.enum).map Prod.fst := by
    rw [List.map_map]; rfl
  rw [h2] at h1
  exact (List.nodup_enum_map_fst docs).sublist h1

theorem scoredRanking_idx_nodup (docs : List Document) (q : String) :
    ((scoredRanking docs q).map (fun sd => sd.idx)).Nodup :=
  (((scoredRanking_perm docs q).map (fun sd => sd.idx)).nodup_iff).2
    (scoredList_idx_nodup docs q)

/-- The scored ranking is strictly ordered: descending score, with equal
scores arranged by ascending corpus position. -/
theorem scoredRanking_pairwise (docs : List Document) (q : String) :
    (scoredRanking docs q).Pairwise
      (fun a b => b.score < a.score ∨ (a.score = b.score ∧ a.idx < b.idx)) := by
  have hs : (scoredRanking docs q).Pairwise sortRel := scoredRanking_sorted docs q
  have hne : (scoredRanking docs q).Pairwise (fun a b => a.idx ≠ b.idx) :=
    List.pairwise_map.1 (scoredRanking_idx_nodup docs q)
  refine (hs.and hne).imp ?_
  rintro a b ⟨hr | ⟨he, hle⟩, hn⟩
  · exact Or.inl hr
  · exact Or.inr ⟨he, lt_of_le_of_ne hle hn⟩

/-- The query token multiset is non-empty iff the token list is. -/
theorem tokenSet_card_ne_zero {q : String} (hq : pyWords (pyLower q) ≠ []) :
    (tokenSet q).card ≠ 0 := by
  intro h0
  apply hq
  have he : tokenSet q = ∅ := Finset.card_eq_zero.1 h0
  unfold tokenSet at he
  exact (List.toFinset_eq_empty_iff _).1 he

/-! ### C1 -/

/-- C1: on a non-empty corpus and a query with at least one token, every
document's score is overlap/|query| plus a tenth per metadata hit; the
scored ranking holds exactly the positions scoring above zero, with their
scores; and it is ordered by strictly descending score with ties in corpus
order. -/
theorem C1_similarity_scoring (docs : List Document) (q : String)
    (hd : docs ≠ []) (hq : pyWords (pyLower q) ≠ []) :
    (∀ d ∈ docs, relevance_score q d =
        ((tokenSet q ∩ contentTokens d).card : ℚ) / ((tokenSet q).card : ℚ)
          + ((tokenSet q ∩ metadataTokens d).card : ℚ) * (1 / 10)) ∧
      (∀ sd ∈ scoredRanking docs q,
        docs[sd.idx]? = some sd.doc ∧ sd.score = relevance_score q sd.doc ∧
          0 < sd.score) ∧
      (∀ i d, docs[i]? = some d → 0 < relevance_score q d →
        ∃ sd ∈ scoredRanking docs q, sd.idx = i ∧ sd.doc = d) ∧
      (scoredRanking docs q).Pairwise
        (fun a b => b.score < a.score ∨ (a.score = b.score ∧ a.idx < b.idx)) := by
  refine ⟨?_, ?_, ?_, scoredRanking_pairwise docs q⟩
  · intro d _
    simp only [relevance_score]
    rw [if_pos (tokenSet_card_ne_zero hq)]
  · intro sd hsd
    exact mem_scoredList.1 ((scoredRanking_perm docs q).mem_iff.1 hsd)
  · intro i d hget hpos
    refine ⟨⟨i, relevance_score q d, d⟩, ?_, rfl, rfl⟩
    exact (scoredRanking_perm docs q).mem_iff.2
      (mem_scoredList.2 ⟨hget, rfl, hpos⟩)

/-- A two-token document for the witnesses. -/
def wdoc : Document := ⟨"alpha beta", []⟩

/-- Witness for C1 at a one-document corpus. -/
theorem C1_similarity_scoring_witness :
    (∀ d ∈ [wdoc], relevance_score "alpha" d =
        ((tokenSet "alpha" ∩ contentTokens d).card : ℚ)
            / ((tokenSet "alpha").card : ℚ)
          + ((tokenSet "alpha" ∩ metadataTokens d).card : ℚ) * (1 / 10)) ∧
      (∀ sd ∈ scoredRanking [wdoc] "alpha",
        [wdoc][sd.idx]? = some sd.doc ∧
          sd.score = relevance_score "alpha" sd.doc ∧ 0 < sd.score) ∧
      (∀ i d, [wdoc][i]? = some d → 0 < relevance_score "alpha" d →
        ∃ sd ∈ scoredRanking [wdoc] "alpha", sd.idx = i ∧ sd.doc = d) ∧
      (scoredRanking [wdoc] "alpha").Pairwise
        (fun a b => b.score < a.score ∨ (a.score = b.score ∧ a.idx < b.idx)) :=
  C1_similarity_scoring [wdoc] "alpha" (by decide) (by decide)

/-! ### C2 -/

/-- C2: with a non-empty corpus and `k ≥ 1`, `similarity_search` returns
between 1 and `k` documents, and when no document scores above zero it
returns the first `min(k, corpus length)` documents unranked. -/
theorem C2_result_count_bounds (docs : List Document) (q : String) (k : ℕ)
    (hd : docs ≠ []) (hk : 1 ≤ k) :
    1 ≤ (similarity_search docs q k).length ∧
      (similarity_search docs q k).length ≤ k ∧
      ((∀ d ∈ docs, relevance_score q d ≤ 0) →
        similarity_search docs q k = docs.take k) := by
  have hdl : 1 ≤ docs.length := by
    cases docs with
    | nil => exact absurd rfl hd
    | cons a l => exact Nat.succ_le_succ (Nat.zero_le _)
  simp only [similarity_search]
  by_cases hres : ((scoredRanking docs q).take k).map (fun sd => sd.doc) = []
  · rw [if_pos ⟨hres, hd⟩]
    refine ⟨?_, ?_, fun _ => rfl⟩
    · rw [List.length_take]
      omega
    · rw [List.length_take]
      omega
  · rw [if_neg (fun hc => hres hc.1)]
    have hle : (((scoredRanking docs q).take k).map (fun sd => sd.doc)).length ≤ k := by
      rw [List.length_map, List.length_take]
      omega
    refine ⟨?_, hle, ?_⟩
    · cases hc : ((scoredRanking docs q).take k).map (fun sd => sd.doc) with
      | nil => exact absurd hc hres
      | cons a l => exact Nat.succ_le_succ (Nat.zero_le _)
    · intro hall
      exfalso
      apply hres
      have hsl : scoredList docs q = [] := by
        apply List.filter_eq_nil_iff.2
        intro sd hsd
        simp only [decide_eq_true_eq]
        obtain ⟨p, hp, he⟩ := List.mem_map.1 hsd
        subst he
        have hmem : p.2 ∈ docs :=
          List.getElem?_mem (List.mem_enum_iff_getElem?.1 hp)
        exact not_lt.2 (hall p.2 hmem)
      unfold scoredRanking
      rw [hsl]
      simp

/-- Witness for C2 at a concrete corpus and query. -/
theorem C2_result_count_bounds_witness :
    1 ≤ (similarity_search [wdoc] "alpha" 2).length ∧
      (similarity_search [wdoc] "alpha" 2).length ≤ 2 ∧
      ((∀ d ∈ [wdoc], relevance_score "alpha" d ≤ 0) →
        similarity_search [wdoc] "alpha" 2 = [wdoc].take 2) :=
  C2_result_count_bounds [wdoc] "alpha" 2 (by decide) (by decide)

/-! ### C10 -/

/-- C10: a query with no whitespace tokens is safe: the guarded division
yields score 0 for every document, and the search returns the first
`min(k, corpus length)` documents (via the fallback branch on a non-empty
corpus, and the empty list on an empty one). -/
theorem C10_tokenless_query_total (docs : List Document) (q : String) (k : ℕ)
    (hk : 1 ≤ k) (hq : pyWords (pyLower q) = []) :
    (∀ d ∈ docs, relevance_score q d = 0) ∧
      similarity_search docs q k = docs.take k := by
  have hts : tokenSet q = ∅ := by
    unfold tokenSet
    rw [hq]
    rfl
  have hscore : ∀ d, relevance_score q d = 0 := by
    intro d
    simp only [relevance_score, hts]
    rw [if_neg (by simp)]
    simp
  have hsl : scoredList docs q = [] := by
    apply List.filter_eq_nil_iff.2
    intro sd hsd
    simp only [decide_eq_true_eq]
    obtain ⟨p, _, he⟩ := List.mem_map.1 hsd
    subst he
    simp only [hscore p.2]
    exact lt_irrefl 0
  have hrank : scoredRanking docs q = [] := by
    unfold scoredRanking
    rw [hsl]
    simp
  refine ⟨fun d _ => hscore d, ?_⟩
  simp only [similarity_search, hrank]
  cases docs with
  | nil => simp
  | cons a l =>
    rw [if_pos ⟨by simp, by simp⟩]

/-- Witness for C10 at a whitespace-only query. -/
theorem C10_tokenless_query_total_witness :
    (∀ d ∈ [wdoc], relevance_score "   " d = 0) ∧
      similarity_search [wdoc] "   " 1 = [wdoc].take 1 :=
  C10_tokenless_query_total [wdoc] "   " 1 (by decide) (by decide)

/-! ### C8 -/

/-- The query of the C8 counterexample. -/
def cexQ : String := "a b c d"

/-- The unique document whose content tokens contain all query tokens. -/
def cexD1 : Document := ⟨"a b c d", []⟩

/-- A document missing a content token but holding all query tokens in its
metadata, whose metadata bonus lifts it above `cexD1`. -/
def cexD2 : Document := ⟨"a b c", [("k", "a b c d")]⟩

/-- C8 counterexample: the query's tokens are a subset of `cexD1`'s content
tokens and of no other document's, yet `cexD2`'s metadata bonus gives it
score 23/20 against `cexD1`'s score 1, so `cexD1` is not ranked first. -/
theorem C8_counterexample :
    pyWords (pyLower cexQ) ≠ [] ∧
      tokenSet cexQ ⊆ contentTokens cexD1 ∧
      ¬ tokenSet cexQ ⊆ contentTokens cexD2 ∧
      (∀ x ∈ [cexD1, cexD2], tokenSet cexQ ⊆ contentTokens x → x = cexD1) ∧
      (similarity_search [cexD1, cexD2] cexQ 5).head? = some cexD2 ∧
      cexD2 ≠ cexD1 := by
  have h1 : relevance_score cexQ cexD1 = 1 := by
    simp only [relevance_score]
    rw [if_pos (show (tokenSet cexQ).card ≠ 0 by decide),
      show (tokenSet cexQ ∩ contentTokens cexD1).card = 4 from by decide,
      show (tokenSet cexQ).card = 4 from by decide,
      show (tokenSet cexQ ∩ metadataTokens cexD1).card = 0 from by decide]
    norm_num
  have h2 : relevance_score cexQ cexD2 = 23 / 20 := by
    simp only [relevance_score]
    rw [if_pos (show (tokenSet cexQ).card ≠ 0 by decide),
      show (tokenSet cexQ ∩ contentTokens cexD2).card = 3 from by decide,
      show (tokenSet cexQ).card = 4 from by decide,
      show (tokenSet cexQ ∩ metadataTokens cexD2).card = 4 from by decide]
    norm_num
  have hsl : scoredList [cexD1, cexD2] cexQ =
      [⟨0, 1, cexD1⟩, ⟨1, 23 / 20, cexD2⟩] := by
    simp only [scoredList]
    rw [show ([cexD1, cexD2]).enum = [(0, cexD1), (1, cexD2)] from rfl]
    simp only [List.map_cons, List.map_nil]
    rw [h1, h2]
    rw [List.filter_cons_of_pos (by simp only [decide_eq_true_eq]; norm_num),
      List.filter_cons_of_pos (by simp only [decide_eq_true_eq]; norm_num),
      List.filter_nil]
  have hrank : scoredRanking [cexD1, cexD2] cexQ =
      [⟨1, 23 / 20, cexD2⟩, ⟨0, 1, cexD1⟩] := by
    unfold scoredRanking
    rw [hsl]
    simp only [List.insertionSort, List.orderedInsert]
    rw [if_neg (show ¬ sortRel ⟨0, 1, cexD1⟩ ⟨1, 23 / 20, cexD2⟩ by
      unfold sortRel
      push_neg
      refine ⟨by norm_num, fun h => absurd h (by norm_num)⟩)]
  refine ⟨by decide, by decide, by decide, by decide, ?_, by decide⟩
  simp only [similarity_search]
  rw [hrank]
  rw [if_neg (fun hc => List.cons_ne_nil _ _ hc.1)]
  rfl

/-- C8 (amended): the unique-content-subset document is ranked first with a
positive score provided additionally that no document in the corpus gets a
metadata bonus for this query (the bonus can otherwise overtake the content
score, see the counterexample). -/
theorem C8_amended_unique_subset_first (docs : List Document) (q : String)
    (k : ℕ) (d : Document)
    (hq : pyWords (pyLower q) ≠ []) (hk : 1 ≤ k) (hmem : d ∈ docs)
    (hsub : tokenSet q ⊆ contentTokens d)
    (huniq : ∀ x ∈ docs, tokenSet q ⊆ contentTokens x → x = d)
    (hmeta : ∀ x ∈ docs, (tokenSet q ∩ metadataTokens x).card = 0) :
    (similarity_search docs q k).head? = some d ∧
      0 < relevance_score q d := by
  have hcard := tokenSet_card_ne_zero hq
  have hcQ : ((tokenSet q).card : ℚ) ≠ 0 := Nat.cast_ne_zero.2 hcard
  have hone : relevance_score q d = 1 := by
    simp only [relevance_score]
    rw [if_pos hcard, Finset.inter_eq_left.mpr hsub, div_self hcQ,
      hmeta d hmem]
    norm_num
  have hlt : ∀ x ∈ docs, x ≠ d → relevance_score q x < 1 := by
    intro x hx hne
    have hnsub : ¬ tokenSet q ⊆ contentTokens x :=
      fun hs => hne (huniq x hx hs)
    simp only [relevance_score]
    rw [if_pos hcard, hmeta x hx]
    have hltc : (tokenSet q ∩ contentTokens x).card < (tokenSet q).card := by
      apply Finset.card_lt_card
      refine ⟨Finset.inter_subset_left, fun hq2 => hnsub ?_⟩
      intro a ha
      exact (Finset.mem_inter.1 (hq2 ha)).2
    have : ((tokenSet q ∩ contentTokens x).card : ℚ)
        / ((tokenSet q).card : ℚ) < 1 := by
      rw [div_lt_one (by positivity)]
      exact_mod_cast hltc
    push_cast
    linarith
  obtain ⟨i, hi⟩ := List.mem_iff_getElem?.1 hmem
  have hsd : (⟨i, relevance_score q d, d⟩ : ScoredDoc) ∈ scoredRanking docs q :=
    (scoredRanking_perm docs q).mem_iff.2
      (mem_scoredList.2 ⟨hi, rfl, by rw [hone]; norm_num⟩)
  have hne : scoredRanking docs q ≠ [] := List.ne_nil_of_mem hsd
  obtain ⟨h0, T, hR⟩ := List.exists_cons_of_ne_nil hne
  have hh0 : h0 ∈ scoredRanking docs q := hR ▸ List.mem_cons_self h0 T
  obtain ⟨hget0, hsc0, _⟩ :=
    mem_scoredList.1 ((scoredRanking_perm docs q).mem_iff.1 hh0)
  have hmem0 : h0.doc ∈ docs := List.getElem?_mem hget0
  have hdoc0 : h0.doc = d := by
    by_contra hned
    have hlt0 : h0.score < 1 := hsc0 ▸ hlt h0.doc hmem0 hned
    rcases List.mem_cons.1 (hR ▸ hsd) with he | hT
    · exact hned (congrArg ScoredDoc.doc he.symm)
    · have hrel := List.rel_of_sorted_cons (hR ▸ scoredRanking_sorted docs q)
        _ hT
      unfold sortRel at hrel
      rcases hrel with hlt1 | ⟨heq, _⟩
      · simp only at hlt1
        rw [hone] at hlt1
        linarith
      · simp only at heq
        rw [hone] at heq
        linarith [heq]
  refine ⟨?_, by rw [hone]; norm_num⟩
  simp only [similarity_search]
  obtain ⟨k', rfl⟩ : ∃ k', k = k' + 1 := ⟨k - 1, by omega⟩
  rw [hR]
  rw [if_neg (fun hc => List.cons_ne_nil _ _ hc.1)]
  show some h0.doc = some d
  rw [hdoc0]

/-- A document sharing no tokens with the witness query. -/
def w8other : Document := ⟨"gamma delta", []⟩

/-- Witness for the amended C8 at a two-document corpus. -/
theorem C8_amended_unique_subset_first_witness :
    (similarity_search [w8other, wdoc] "alpha beta" 3).head? = some wdoc ∧
      0 < relevance_score "alpha beta" wdoc :=
  C8_amended_unique_subset_first [w8other, wdoc] "alpha beta" 3 wdoc
    (by decide) (by decide) (by decide) (by decide) (by decide) (by decide)

/-! ### The intent scoring of `classify_query` -/

theorem foldl_add_mul (f : RE → ℚ) (c : ℚ) :
    ∀ (l : List RE) (a : ℚ),
      l.foldl (fun sc p => sc + f p * c) a = a + (l.map f).sum * c
  | [], a => by simp
  | p :: l, a => by
    simp only [List.foldl_cons, List.map_cons, List.sum_cons]
    rw [foldl_add_mul f c l (a + f p * c)]
    ring

/-- A category's score is the sum of its per-pattern match counts times the
per-pattern weight `1 / len(patterns)`. -/
theorem intentScore_eq (pats : List RE) (q : String) :
    intentScore pats q
      = ((pats.map (fun p => (patternCount p q : ℚ))).sum)
        * (1 / (pats.length : ℚ)) := by
  unfold intentScore
  have h := foldl_add_mul (fun p => (patternCount p q : ℚ))
    (1 / (pats.length : ℚ)) pats 0
  rw [zero_add] at h
  exact h

/-- Evaluation bridge: once the match counts are computed, the score is
their sum times the weight. -/
theorem intentScore_counts (pats : List RE) (q : String) (counts : List ℕ)
    (h : pats.map (fun p => patternCount p q) = counts) :
    intentScore pats q
      = ((counts.map (Nat.cast : ℕ → ℚ)).sum) * (1 / (pats.length : ℚ)) := by
  rw [intentScore_eq]
  congr 1
  rw [← h, List.map_map]
  rfl

theorem intentScore_nonneg (pats : List RE) (q : String) :
    0 ≤ intentScore pats q := by
  rw [intentScore_eq]
  apply mul_nonneg
  · apply List.sum_nonneg
    intro x hx
    obtain ⟨p, _, rfl⟩ := List.mem_map.1 hx
    positivity
  · positivity

theorem foldl_max_mem (a : ℚ) (l : List ℚ) : l.foldl max a ∈ a :: l := by
  induction l generalizing a with
  | nil => simp
  | cons x xs ih =>
    simp only [List.foldl_cons]
    rcases List.mem_cons.1 (ih (max a x)) with h | h
    · rw [h]
      rcases max_choice a x with hm | hm <;> rw [hm]
      · exact List.mem_cons_self _ _
      · exact List.mem_cons_of_mem _ (List.mem_cons_self _ _)
    · exact List.mem_cons_of_mem _ (List.mem_cons_of_mem _ h)

theorem le_foldl_max (a : ℚ) (l : List ℚ) :
    a ≤ l.foldl max a ∧ ∀ v ∈ l, v ≤ l.foldl max a := by
  induction l generalizing a with
  | nil => simp
  | cons x xs ih =>
    simp only [List.foldl_cons]
    obtain ⟨h1, h2⟩ := ih (max a x)
    refine ⟨le_trans (le_max_left a x) h1, ?_⟩
    intro v hv
    rcases List.mem_cons.1 hv with rfl | hv'
    · exact le_trans (le_max_right a v) h1
    · exact h2 v hv'

/-- Python's `max(values)` on a non-empty list is attained and dominates. -/
theorem maxOfValues_spec (l : List ℚ) (hl : l ≠ []) :
    maxOfValues l ∈ l ∧ ∀ v ∈ l, v ≤ maxOfValues l := by
  cases l with
  | nil => exact absurd rfl hl
  | cons x xs =>
    refine ⟨foldl_max_mem x xs, ?_⟩
    intro v hv
    rcases List.mem_cons.1 hv with rfl | hv'
    · exact (le_foldl_max v xs).1
    · exact (le_foldl_max x xs).2 v hv'

/-- The champion of Python's `max(keys, key=...)` fold: it is in the list,
its score dominates, and it is the first entry attaining its score. -/
theorem argmax_foldl_spec (x : String × ℚ) : ∀ (xs : List (String × ℚ)),
    (xs.foldl (fun b y => if b.2 < y.2 then y else b) x ∈ x :: xs) ∧
      (∀ p ∈ x :: xs,
        p.2 ≤ (xs.foldl (fun b y => if b.2 < y.2 then y else b) x).2) ∧
      ((x :: xs).find? (fun p =>
          decide (p.2 = (xs.foldl (fun b y => if b.2 < y.2 then y else b) x).2))
        = some (xs.foldl (fun b y => if b.2 < y.2 then y else b) x)) := by
  intro xs
  induction xs generalizing x with
  | nil =>
    refine ⟨List.mem_cons_self _ _, ?_, ?_⟩
    · intro p hp
      rcases List.mem_cons.1 hp with rfl | hp'
      · exact le_refl _
      · exact absurd hp' (List.not_mem_nil p)
    · exact List.find?_cons_of_pos _ (by simp)
  | cons y ys ih =>
    simp only [List.foldl_cons]
    by_cases hxy : x.2 < y.2
    · simp only [if_pos hxy]
      obtain ⟨hb1, hb2, hb3⟩ := ih y
      have hyb : y.2 ≤ (ys.foldl (fun b y => if b.2 < y.2 then y else b) y).2 :=
        hb2 y (List.mem_cons_self _ _)
      refine ⟨List.mem_cons_of_mem _ hb1, ?_, ?_⟩
      · intro p hp
        rcases List.mem_cons.1 hp with rfl | hp'
        · exact le_trans (le_of_lt hxy) hyb
        · exact hb2 p hp'
      · rw [List.find?_cons_of_neg _ (by
          simp only [decide_eq_true_eq]
          exact ne_of_lt (lt_of_lt_of_le hxy hyb))]
        exact hb3
    · simp only [if_neg hxy]
      obtain ⟨hb1, hb2, hb3⟩ := ih x
      have hxb : x.2 ≤ (ys.foldl (fun b y => if b.2 < y.2 then y else b) x).2 :=
        hb2 x (List.mem_cons_self _ _)
      refine ⟨?_, ?_, ?_⟩
      · rcases List.mem_cons.1 hb1 with h | h
        · rw [h]
          exact List.mem_cons_self _ _
        · exact List.mem_cons_of_mem _ (List.mem_cons_of_mem _ h)
      · intro p hp
        rcases List.mem_cons.1 hp with rfl | hp'
        · exact hxb
        · rcases List.mem_cons.1 hp' with rfl | hp''
          · exact le_trans (not_lt.1 hxy) hxb
          · exact hb2 p (List.mem_cons_of_mem _ hp'')
      · by_cases hxeq :
          x.2 = (ys.foldl (fun b y => if b.2 < y.2 then y else b) x).2
        · have hx : (x :: ys).find? (fun p => decide
              (p.2 = (ys.foldl (fun b y => if b.2 < y.2 then y else b) x).2))
              = some x :=
            List.find?_cons_of_pos _ (by simp [hxeq])
          have hbx : x = ys.foldl (fun b y => if b.2 < y.2 then y else b) x :=
            Option.some.inj (hx.symm.trans hb3)
          rw [List.find?_cons_of_pos _ (by simp [hxeq])]
          exact congrArg some hbx
        · have hy2 : ¬ y.2
              = (ys.foldl (fun b y => if b.2 < y.2 then y else b) x).2 := by
            intro he
            have h2 : y.2 ≤ x.2 := not_lt.1 hxy
            exact hxeq (le_antisymm hxb (he ▸ h2))
          rw [List.find?_cons_of_neg _ (by simp [hxeq]),
            List.find?_cons_of_neg _ (by simp [hy2])]
          rw [List.find?_cons_of_neg _ (by simp [hxeq])] at hb3
          exact hb3

/-- The intent table is never empty. -/
theorem intentScoresList_ne_nil (q : String) : intentScoresList q ≠ [] := by
  simp [intentScoresList, intent_patterns]

/-- Every entry of the scores table carries some category's score. -/
theorem mem_intentScoresList {q : String} {p : String × ℚ}
    (hp : p ∈ intentScoresList q) :
    ∃ np ∈ intent_patterns, p = (np.1, intentScore np.2 (pyLower q)) := by
  obtain ⟨np, hnp, he⟩ := List.mem_map.1 hp
  exact ⟨np, hnp, he.symm⟩

theorem intentScoresList_nonneg {q : String} {p : String × ℚ}
    (hp : p ∈ intentScoresList q) : 0 ≤ p.2 := by
  obtain ⟨np, _, rfl⟩ := mem_intentScoresList hp
  exact intentScore_nonneg np.2 (pyLower q)

/-! ### C3 -/

/-- C3: every category is scored as the sum over its patterns of the match
count times `1/len(patterns)`; when every category scores 0 the result is
`general_inquiry` with confidence exactly 3/10; otherwise the result is the
first category in table order attaining the maximal score, with confidence
`min(max score, 1)`. -/
theorem C3_classify_spec (q : String) :
    (intentScoresList q = intent_patterns.map (fun np =>
        (np.1, ((np.2.map (fun p => (patternCount p (pyLower q) : ℚ))).sum)
          * (1 / (np.2.length : ℚ))))) ∧
      ((∀ p ∈ intentScoresList q, p.2 = 0) →
        classify_query q = ⟨"general_inquiry", 3 / 10, extract_entities q,
          suggest_filters q (extract_entities q) "general_inquiry"⟩) ∧
      ((¬ ∀ p ∈ intentScoresList q, p.2 = 0) →
        (classify_query q).intent_type = (argmaxFirst (intentScoresList q)).1
          ∧ (classify_query q).confidence
              = min (argmaxFirst (intentScoresList q)).2 1
          ∧ argmaxFirst (intentScoresList q) ∈ intentScoresList q
          ∧ (∀ p ∈ intentScoresList q,
              p.2 ≤ (argmaxFirst (intentScoresList q)).2)
          ∧ (intentScoresList q).find? (fun p =>
              decide (p.2 = (argmaxFirst (intentScoresList q)).2))
            = some (argmaxFirst (intentScoresList q))) := by
  refine ⟨?_, ?_, ?_⟩
  · unfold intentScoresList
    apply List.map_congr_left
    intro np _
    rw [intentScore_eq]
  · intro hz
    have hmax : maxOfValues ((intentScoresList q).map Prod.snd) = 0 := by
      have hne : (intentScoresList q).map Prod.snd ≠ [] := by
        intro h
        exact intentScoresList_ne_nil q (List.map_eq_nil_iff.1 h)
      obtain ⟨hmem, _⟩ := maxOfValues_spec _ hne
      obtain ⟨p, hp, he⟩ := List.mem_map.1 hmem
      rw [← he]
      exact hz p hp
    simp only [classify_query]
    rw [if_pos (Or.inr hmax)]
  · intro hnz
    have hcond : ¬ (intentScoresList q = []
        ∨ maxOfValues ((intentScoresList q).map Prod.snd) = 0) := by
      push_neg
      refine ⟨intentScoresList_ne_nil q, ?_⟩
      intro hmax0
      apply hnz
      intro p hp
      have hne : (intentScoresList q).map Prod.snd ≠ [] := by
        intro h
        exact intentScoresList_ne_nil q (List.map_eq_nil_iff.1 h)
      obtain ⟨_, hdom⟩ := maxOfValues_spec _ hne
      have hle : p.2 ≤ 0 := hmax0 ▸ hdom p.2 (List.mem_map_of_mem Prod.snd hp)
      exact le_antisymm hle (intentScoresList_nonneg hp)
    obtain ⟨s0, rest, hs⟩ :=
      List.exists_cons_of_ne_nil (intentScoresList_ne_nil q)
    have hcq : classify_query q = ⟨(argmaxFirst (intentScoresList q)).1,
        min (argmaxFirst (intentScoresList q)).2 1, extract_entities q,
        suggest_filters q (extract_entities q)
          (argmaxFirst (intentScoresList q)).1⟩ := by
      simp only [classify_query]
      rw [if_neg hcond]
    obtain ⟨ha1, ha2, ha3⟩ := argmax_foldl_spec s0 rest
    have hafirst : argmaxFirst (intentScoresList q)
        = rest.foldl (fun b y => if b.2 < y.2 then y else b) s0 := by
      rw [hs]
      rfl
    refine ⟨by rw [hcq], by rw [hcq], ?_, ?_, ?_⟩
    · rw [hafirst, hs]
      exact ha1
    · rw [hafirst, hs]
      exact ha2
    · rw [hafirst, hs]
      exact ha3

/-- Witness for C3: a query matching no pattern lands in the all-zero
branch. -/
theorem C3_classify_spec_witness :
    classify_query "hello" = ⟨"general_inquiry", 3 / 10,
      extract_entities "hello",
      suggest_filters "hello" (extract_entities "hello") "general_inquiry"⟩ := by
  apply (C3_classify_spec "hello").2.1
  have h1 : intentScore performance_anomaly_pats (pyLower "hello") = 0 := by
    rw [intentScore_counts performance_anomaly_pats _ [0, 0, 0, 0, 0]
      (by decide)]
    simp
  have h2 : intentScore campaign_comparison_pats (pyLower "hello") = 0 := by
    rw [intentScore_counts campaign_comparison_pats _ [0, 0, 0, 0, 0]
      (by decide)]
    simp
  have h3 : intentScore performance_ranking_pats (pyLower "hello") = 0 := by
    rw [intentScore_counts performance_ranking_pats _ [0, 0, 0, 0, 0]
      (by decide)]
    simp
  have h4 : intentScore trend_analysis_pats (pyLower "hello") = 0 := by
    rw [intentScore_counts trend_analysis_pats _ [0, 0, 0, 0, 0] (by decide)]
    simp
  have h5 : intentScore prediction_forecast_pats (pyLower "hello") = 0 := by
    rw [intentScore_counts prediction_forecast_pats _ [0, 0, 0, 0, 0, 0]
      (by decide)]
    simp
  have h6 : intentScore optimization_advice_pats (pyLower "hello") = 0 := by
    rw [intentScore_counts optimization_advice_pats _ [0, 0, 0, 0, 0]
      (by decide)]
    simp
  have h7 : intentScore budget_spend_pats (pyLower "hello") = 0 := by
    rw [intentScore_counts budget_spend_pats _ [0, 0, 0, 0, 0] (by decide)]
    simp
  have h8 : intentScore audience_analysis_pats (pyLower "hello") = 0 := by
    rw [intentScore_counts audience_analysis_pats _ [0, 0, 0, 0, 0]
      (by decide)]
    simp
  have h9 : intentScore creative_performance_pats (pyLower "hello") = 0 := by
    rw [intentScore_counts creative_performance_pats _ [0, 0, 0, 0, 0]
      (by decide)]
    simp
  have hs : intentScoresList "hello" =
      [("performance_anomaly", 0), ("campaign_comparison", 0),
       ("performance_ranking", 0), ("trend_analysis", 0),
       ("prediction_forecast", 0), ("optimization_advice", 0),
       ("budget_spend", 0), ("audience_analysis", 0),
       ("creative_performance", 0)] := by
    simp only [intentScoresList, intent_patterns, List.map_cons, List.map_nil]
    rw [h1, h2, h3, h4, h5, h6, h7, h8, h9]
  intro p hp
  rw [hs] at hp
  fin_cases hp <;> rfl

/-! ### C7 -/

/-- Evaluation of the nine category scores on the C7 query. -/
theorem c7_scores_eval : intentScoresList c7q = c7scores := by
  have h1 : intentScore performance_anomaly_pats (pyLower c7q) = 0 := by
    rw [intentScore_counts performance_anomaly_pats _ [0, 0, 0, 0, 0]
      (by decide)]
    simp
  have h2 : intentScore campaign_comparison_pats (pyLower c7q) = 0 := by
    rw [intentScore_counts campaign_comparison_pats _ [0, 0, 0, 0, 0]
      (by decide)]
    simp
  have h3 : intentScore performance_ranking_pats (pyLower c7q) = 0 := by
    rw [intentScore_counts performance_ranking_pats _ [0, 0, 0, 0, 0]
      (by decide)]
    simp
  have h4 : intentScore trend_analysis_pats (pyLower c7q) = 1 / 5 := by
    rw [intentScore_counts trend_analysis_pats _ [0, 0, 1, 0, 0] (by decide),
      show trend_analysis_pats.length = 5 from rfl]
    simp
  have h5 : intentScore prediction_forecast_pats (pyLower c7q) = 0 := by
    rw [intentScore_counts prediction_forecast_pats _ [0, 0, 0, 0, 0, 0]
      (by decide)]
    simp
  have h6 : intentScore optimization_advice_pats (pyLower c7q) = 0 := by
    rw [intentScore_counts optimization_advice_pats _ [0, 0, 0, 0, 0]
      (by decide)]
    simp
  have h7 : intentScore budget_spend_pats (pyLower c7q) = 0 := by
    rw [intentScore_counts budget_spend_pats _ [0, 0, 0, 0, 0] (by decide)]
    simp
  have h8 : intentScore audience_analysis_pats (pyLower c7q) = 0 := by
    rw [intentScore_counts audience_analysis_pats _ [0, 0, 0, 0, 0]
      (by decide)]
    simp
  have h9 : intentScore creative_performance_pats (pyLower c7q) = 0 := by
    rw [intentScore_counts creative_performance_pats _ [0, 0, 0, 0, 0]
      (by decide)]
    simp
  simp only [intentScoresList, intent_patterns, List.map_cons, List.map_nil]
  rw [h1, h2, h3, h4, h5, h6, h7, h8, h9]
  rfl

/-- The first maximal entry of the C7 score table is `trend_analysis`. -/
theorem c7_argmax : argmaxFirst c7scores = ("trend_analysis", 1 / 5) := by
  obtain ⟨hmem, hge, _⟩ := argmax_foldl_spec ("performance_anomaly", (0 : ℚ))
    [("campaign_comparison", 0), ("performance_ranking", 0),
     ("trend_analysis", 1 / 5), ("prediction_forecast", 0),
     ("optimization_advice", 0), ("budget_spend", 0),
     ("audience_analysis", 0), ("creative_performance", 0)]
  have hval := hge ("trend_analysis", 1 / 5) (by simp)
  show List.foldl (fun b y => if b.2 < y.2 then y else b)
    ("performance_anomaly", (0 : ℚ))
    [("campaign_comparison", 0), ("performance_ranking", 0),
     ("trend_analysis", 1 / 5), ("prediction_forecast", 0),
     ("optimization_advice", 0), ("budget_spend", 0),
     ("audience_analysis", 0), ("creative_performance", 0)]
    = ("trend_analysis", 1 / 5)
  simp only [List.mem_cons, List.not_mem_nil, or_false] at hmem
  rcases hmem with h | h | h | h | h | h | h | h | h
  all_goals first
    | exact h
    | (rw [h] at hval; norm_num at hval)

/-- The maximal C7 score is `1/5`. -/
theorem c7_max : maxOfValues (c7scores.map Prod.snd) = 1 / 5 := by
  obtain ⟨hmem, hge⟩ := maxOfValues_spec
    [(0 : ℚ), 0, 0, 1 / 5, 0, 0, 0, 0, 0] (by simp)
  have hval := hge (1 / 5) (by norm_num)
  show maxOfValues [(0 : ℚ), 0, 0, 1 / 5, 0, 0, 0, 0, 0] = 1 / 5
  simp only [List.mem_cons, List.not_mem_nil, or_false] at hmem
  rcases hmem with h | h | h | h | h | h | h | h | h
  all_goals first
    | exact h
    | (rw [h] at hval; norm_num at hval)

/-- Full evaluation of `classify_query` on the C7 query. -/
theorem c7_eval :
    classify_query c7q = ⟨"trend_analysis", 1 / 5, c7entities, c7filters⟩ := by
  have hent : extract_entities c7q = c7entities := by decide
  have hfil : suggest_filters c7q c7entities "trend_analysis" = c7filters := by
    decide
  simp only [classify_query]
  rw [c7_scores_eval]
  rw [if_neg (by
    push_neg
    refine ⟨by simp [c7scores], ?_⟩
    rw [c7_max]
    norm_num)]
  rw [c7_argmax]
  show QueryIntent.mk "trend_analysis" (min (1 / 5 : ℚ) 1)
    (extract_entities c7q)
    (suggest_filters c7q (extract_entities c7q) "trend_analysis") = _
  rw [hent, hfil, show min ((1 : ℚ) / 5) 1 = 1 / 5 from min_eq_left
    (by norm_num)]

/-- C7 counterexample: on the exact query the code returns intent
`"trend_analysis"`, not `"performance_anomaly"` (no anomaly pattern matches:
the first one requires the spike word before the metric word), and the
metrics entry is `"CPM"` in the query's original casing, so it does not
include the lower-case string `"cpm"`. -/
theorem C7_counterexample :
    (classify_query c7q).intent_type = "trend_analysis" ∧
      (classify_query c7q).intent_type ≠ "performance_anomaly" ∧
      (classify_query c7q).extracted_entities.lookup "metrics"
        = some [PyStr.str "CPM"] ∧
      PyStr.str "cpm" ∉ [PyStr.str "CPM"] := by
  rw [c7_eval]
  decide

/-- C7 (amended): `classify_query "Why did my CPM spike last week?"` returns
intent `"trend_analysis"` with confidence `1/5`; the extracted entities hold
a `"metrics"` entry `["CPM"]` (original casing) and a `"time_periods"` entry
`("last", "week")`, and the suggested filters carry the parsed last-week
time filter and the metrics focus `["CPM"]`. -/
theorem C7_amended_classification :
    classify_query c7q = ⟨"trend_analysis", 1 / 5, c7entities, c7filters⟩ :=
  c7_eval

end RAGMeta

-- TEMPORARY sanity checks against Python ground truth (to be removed)
namespace RAGMeta

def q1 : String := "Why did my CPM spike last week in the fashion campaign?"
def q2 : String := "Compare my retargeting vs lookalike campaigns performance"
def q8 : String := "what should happen when costs rise 12.5% over $1,234.56 on 12/05/2024 in feed and stories for ad 'Big Sale'?"

example : intent_patterns.map (fun np => np.2.map (fun p => patternCount p (pyLower q1)))
  = [[0,0,0,0,0],[0,0,0,0,0],[0,0,0,0,0],[0,0,1,0,0],[0,0,0,0,0,0],[0,0,0,0,0],[0,0,0,0,0],[0,0,0,0,0],[0,0,0,0,0]] := by decide

example : intent_patterns.map (fun np => np.2.map (fun p => patternCount p (pyLower q2)))
  = [[0,0,0,0,0],[1,1,0,0,1],[0,0,0,0,0],[0,0,0,0,0],[0,0,0,0,0,0],[0,0,0,0,0],[0,0,0,0,0],[0,0,0,0,0],[0,0,0,0,0]] := by decide

example : extract_entities q1 =
  [("metrics", [.str "CPM"]), ("time_periods", [.tup ["last","week"]]), ("industries", [.str "fashion"])] := by decide

example : extract_entities q2 = [("audience_types", [.str "retargeting", .str "lookalike"])] := by decide

example : suggest_filters q1 (extract_entities q1) "trend_analysis" =
  [("time_filter", .period "last_week" 7), ("industry_filter", .matches [.str "fashion"]),
   ("metrics_focus", .matches [.str "CPM"])] := by decide

example : suggest_filters q2 (extract_entities q2) "campaign_comparison" =
  [("audience_filter", .matches [.str "retargeting", .str "lookalike"]),
   ("comparison_type", .strv "audience_type")] := by decide

example : extract_entities q8 =
  [("campaign_names", [.tup ["ad", "Big Sale"]]),
   ("specific_dates", [.str "12/05/2024"]),
   ("percentages", [.str "12.5"]),
   ("currency", [.str "1,234.56"]),
   ("placements", [.str "feed", .str "stories"])] := by decide

example : intent_patterns.map (fun np => np.2.map (fun p => patternCount p (pyLower q8)))
  = [[0,0,0,1,0],[0,0,0,0,0],[0,0,0,0,0],[0,0,0,0,0],[0,0,0,0,0,0],[0,1,0,0,0],[0,0,0,0,0],[0,0,0,0,0],[0,0,0,0,0]] := by decide

end RAGMeta
